import Mathlib

/-!
Verification of the flowpilot operations-agent core: a shallow embedding of
the policy engine, action classifier, audit logger, tool registry, provider
response normalization, batch SSH fan-out and the agent loop, with theorems
settling the specified properties.
-/

set_option maxRecDepth 20000

namespace FlowPilot

/-- JSON-like Python values used for tool arguments and stored records. -/
inductive PyVal where
  | str (s : String)
  | int (n : Int)
  | num (q : ℚ)
  | bool (b : Bool)
  | list (xs : List PyVal)
  | dict (xs : List (String × PyVal))
  | null

/-- A Python dict with string keys, modelled as an association list with
unique keys; lookup returns the first binding. -/
abbrev PyDict := List (String × PyVal)

/-- Embedding of `d.get(k)` returning `None` on a missing key. -/
def dictGet? (d : PyDict) (k : String) : Option PyVal :=
  (d.find? (·.1 == k)).map (·.2)

/-- Embedding of `d.get(k, default)`. -/
def dictGetD (d : PyDict) (k : String) (default : PyVal) : PyVal :=
  (dictGet? d k).getD default

/-- Embedding of `d.get(k, default)` where the stored value is expected to be a string
(the repo only stores strings under the keys read this way). -/
def dictGetStrD (d : PyDict) (k : String) (default : String) : String :=
  match dictGet? d k with
  | some (.str s) => s
  | _ => default

/-! ## Regex engine

Executable model of the behaviour of `re.search` and `re.sub` with
`re.IGNORECASE` (and `re.DOTALL` where the source passes it) on the fixed
pattern tables of the repo. Quantifier bodies of every pattern used here
consume at least one character, so the star cases require strict
consumption per unrolling without changing the matched language. -/

inductive Re where
  | eps
  | pred (p : Char → Bool)
  | cat (a b : Re)
  | alt (a b : Re)
  | starG (a : Re)
  | starL (a : Re)
  | repGe (n : Nat) (a : Re)
  | bound

/-- Word characters for the `\b` assertion. -/
def isWordChar (c : Char) : Bool :=
  c.isAlpha || c.isDigit || c == '_'

/-- Is the gap between `prev` and the head of `s` a word boundary. -/
def atBoundary (prev : Option Char) (s : List Char) : Bool :=
  (match prev with | some c => isWordChar c | _ => false)
    != (match s with | c :: _ => isWordChar c | _ => false)

/-- All ways to match `r` at the start of `s`, in backtracking priority
order (greedy quantifiers longest first, lazy shortest first); each result
is the pair of the last consumed character and the remaining suffix. -/
def mrun (fuel : Nat) (r : Re) (prev : Option Char) (s : List Char) :
    List (Option Char × List Char) :=
  match fuel with
  | 0 => []
  | f + 1 =>
    match r with
    | .eps => [(prev, s)]
    | .pred p =>
      match s with
      | [] => []
      | c :: rest => if p c then [(some c, rest)] else []
    | .cat a b =>
      (mrun f a prev s).flatMap fun pr => mrun f b pr.1 pr.2
    | .alt a b => mrun f a prev s ++ mrun f b prev s
    | .starG a =>
      ((mrun f a prev s).filter fun pr => pr.2.length < s.length).flatMap
        (fun pr => mrun f (.starG a) pr.1 pr.2) ++ [(prev, s)]
    | .starL a =>
      (prev, s) ::
        ((mrun f a prev s).filter fun pr => pr.2.length < s.length).flatMap
          (fun pr => mrun f (.starL a) pr.1 pr.2)
    | .repGe n a =>
      match n with
      | 0 => mrun f (.starG a) prev s
      | n + 1 => (mrun f a prev s).flatMap fun pr => mrun f (.repGe n a) pr.1 pr.2
    | .bound => if atBoundary prev s then [(prev, s)] else []

/-- Fuel comfortably above the recursion depth needed for the fixed
patterns of the repo on an input of this length. -/
def fuelFor (s : List Char) : Nat := 400 * (s.length + 2)

/-- First (highest-priority) match of `r` at the start of `s`. -/
def matchAt (r : Re) (prev : Option Char) (s : List Char) :
    Option (Option Char × List Char) :=
  (mrun (fuelFor s) r prev s).head?

/-- Scan of `re.sub`: replace each leftmost match with the fixed
replacement and continue after it. -/
def subScan (fuel : Nat) (r : Re) (repl : List Char) (prev : Option Char)
    (s : List Char) : List Char :=
  match fuel with
  | 0 => s
  | f + 1 =>
    match matchAt r prev s with
    | some (lastc, suffix) =>
      if suffix.length < s.length then
        repl ++ subScan f r repl lastc suffix
      else
        match s with
        | [] => repl
        | c :: rest => repl ++ [c] ++ subScan f r repl (some c) rest
    | Option.none =>
      match s with
      | [] => []
      | c :: rest => c :: subScan f r repl (some c) rest

/-- Embedding of `re.sub(pattern, repl, s)` for the fixed patterns. -/
def reSub (r : Re) (repl : String) (s : String) : String :=
  String.mk (subScan (s.data.length + 1) r repl.data Option.none s.data)

/-- Scan of `re.search`: does `r` match at any start position. -/
def searchScan (fuel : Nat) (r : Re) (prev : Option Char) (s : List Char) : Bool :=
  match fuel with
  | 0 => false
  | f + 1 =>
    match matchAt r prev s with
    | some _ => true
    | Option.none =>
      match s with
      | [] => false
      | c :: rest => searchScan f r (some c) rest

/-- Embedding of `re.search(pattern, s) is not None` for the fixed patterns. -/
def reSearch (r : Re) (s : String) : Bool :=
  searchScan (s.data.length + 1) r Option.none s.data

/-- A literal, matched case-insensitively (`re.IGNORECASE`). -/
def litStr (t : String) : Re :=
  t.data.foldr (fun c acc => .cat (.pred fun x => x.toLower == c.toLower) acc) .eps

/-- Greedy `+`. -/
def plusG (a : Re) : Re := .cat a (.starG a)

/-- Embedding of `?`. -/
def reOpt (a : Re) : Re := .alt a .eps

/-- Python `\s` over ASCII. -/
def isPySpace (c : Char) : Bool :=
  c == ' ' || c == '\t' || c == '\n' || c == '\r' || c == '\x0b' || c == '\x0c'

/-! ## `utils/sensitive.py` -/

/-- The class `["\s:=]`. -/
def sepClass : Re := .pred fun c => c == '"' || isPySpace c || c == ':' || c == '='

/-- The class `[a-zA-Z0-9_\-\.]`. -/
def tokenClass : Re := .pred fun c => c.isAlpha || c.isDigit || c == '_' || c == '-' || c == '.'

/-- The class `[^\s"]`. -/
def nonSpaceQuote : Re := .pred fun c => !(isPySpace c || c == '"')

/-- The class `[^\s]`. -/
def nonSpace : Re := .pred fun c => !isPySpace c

/-- Embedding of `.` under `re.DOTALL`. -/
def dotAll : Re := .pred fun _ => true

/-- Embedding of `SENSITIVE_PATTERNS`: the fixed (pattern, replacement) table. -/
def SENSITIVE_PATTERNS : List (Re × String) :=
  [ (.cat (litStr "token") (.cat (plusG sepClass) (.repGe 8 tokenClass)),
      "token=***MASKED***"),
    (.cat (litStr "Bearer") (.cat (plusG (.pred isPySpace)) (plusG tokenClass)),
      "Bearer ***MASKED***"),
    (.cat (litStr "password") (.cat (plusG sepClass) (.repGe 3 nonSpaceQuote)),
      "password=***MASKED***"),
    (.cat (litStr "passwd") (.cat (plusG sepClass) (.repGe 3 nonSpaceQuote)),
      "passwd=***MASKED***"),
    (.cat (litStr "secret") (.cat (plusG sepClass) (.repGe 3 nonSpaceQuote)),
      "secret=***MASKED***"),
    (.cat (litStr "api")
        (.cat (reOpt (.pred fun c => c == '_' || c == '-'))
          (.cat (litStr "key") (.cat (plusG sepClass) (.repGe 8 nonSpaceQuote)))),
      "api_key=***MASKED***"),
    (.cat (litStr "Authorization:")
        (.cat (.starG (.pred isPySpace)) (plusG (.pred fun c => c != '\n'))),
      "Authorization: ***MASKED***"),
    (.cat (litStr "aws_secret_access_key")
        (.cat (plusG (.pred fun c => c == '=' || isPySpace c)) (plusG nonSpace)),
      "aws_secret_access_key=***MASKED***"),
    (.cat (litStr "aws_access_key_id")
        (.cat (plusG (.pred fun c => c == '=' || isPySpace c)) (plusG nonSpace)),
      "aws_access_key_id=***MASKED***"),
    (.cat (litStr "-----BEGIN")
        (.cat (.starG dotAll)
          (.cat (litStr "PRIVATE KEY-----")
            (.cat (.starL dotAll)
              (.cat (litStr "-----END") (.cat (.starG dotAll) (litStr "PRIVATE KEY-----")))))),
      "***SSH_PRIVATE_KEY_MASKED***"),
    (.cat .bound
        (.cat (litStr "sk-")
          (.cat (.repGe 20 (.pred fun c => c.isAlpha || c.isDigit)) .bound)),
      "***MASKED***"),
    (.cat .bound
        (.cat (litStr "AIza")
          (.cat (.repGe 20 (.pred fun c => c.isAlpha || c.isDigit || c == '_' || c == '-')) .bound)),
      "***MASKED***") ]

/-- Embedding of `mask_sensitive` from `utils/sensitive.py`: substitute every pattern in
order; the empty string is returned unchanged. -/
def mask_sensitive (text : String) : String :=
  if text.isEmpty then text
  else SENSITIVE_PATTERNS.foldl (fun result pr => reSub pr.1 pr.2 result) text

/-- Embedding of `is_sensitive` from `utils/sensitive.py`. -/
def is_sensitive (text : String) : Bool :=
  if text.isEmpty then false
  else SENSITIVE_PATTERNS.any fun pr => reSearch pr.1 text

/-! ## `policy/action_classifier.py` -/

/-- Embedding of `ActionType` enumeration. -/
inductive ActionType where
  | read
  | write
  | destructive
deriving Repr, DecidableEq

/-- The `.value` of the string enum. -/
def ActionType.value : ActionType → String
  | .read => "read"
  | .write => "write"
  | .destructive => "destructive"

/-- Embedding of `.` without `re.DOTALL` (the classifier does not pass it). -/
def dotNoNl : Re := .pred fun c => c != '\n'

/-- The class `[a-z]` (with IGNORECASE in force). -/
def lowerAlpha : Re := .pred fun c => c.isAlpha

/-- The class `\w`. -/
def wordClass : Re := .pred isWordChar

/-- Greedy `\s+`. -/
def ws1 : Re := plusG (.pred isPySpace)

/-- Embedding of `DESTRUCTIVE_KEYWORDS` pattern table. -/
def DESTRUCTIVE_KEYWORDS : List Re :=
  [ .cat (litStr "rm") (.cat ws1 (.cat (litStr "-rf") (.cat ws1 (litStr "/")))),
    litStr "mkfs",
    .cat (litStr "dd") (.cat ws1 (litStr "if=")),
    litStr "shutdown",
    litStr "reboot",
    litStr "halt",
    .cat (litStr "init") (.cat ws1 (litStr "0")),
    .cat (litStr "init") (.cat ws1 (litStr "6")),
    .cat (litStr "systemctl") (.cat ws1 (litStr "poweroff")),
    .cat (litStr "systemctl") (.cat ws1 (litStr "reboot")),
    .cat (litStr ">/dev/sd") lowerAlpha,
    litStr "wipefs",
    .cat (litStr "fdisk") (.cat (.starG dotNoNl) (litStr "-w")) ]

/-- Embedding of `WRITE_KEYWORDS` pattern table. -/
def WRITE_KEYWORDS : List Re :=
  [ .cat (litStr "rm") ws1,
    .cat (litStr "mv") ws1,
    .cat (litStr "cp") (.cat ws1 (.cat (.starG dotNoNl) (.cat ws1 (litStr "/")))),
    litStr ">",
    litStr ">>",
    .cat (litStr "systemctl") (.cat ws1 (litStr "stop")),
    .cat (litStr "systemctl") (.cat ws1 (litStr "disable")),
    .cat (litStr "kill") (.cat ws1 (litStr "-9")),
    litStr "pkill",
    litStr "chmod",
    litStr "chown",
    .cat (litStr "service") (.cat ws1 (.cat (plusG wordClass) (.cat ws1 (litStr "stop")))),
    .cat (litStr "docker") (.cat ws1 (litStr "rm")),
    .cat (litStr "docker") (.cat ws1 (litStr "stop")),
    .cat (litStr "kubectl") (.cat ws1 (litStr "delete")),
    .cat (litStr "sed") (.cat ws1 (litStr "-i")),
    litStr "truncate" ]

/-- Embedding of `command.lower().strip()` over the character list (ASCII whitespace). -/
def pyLowerStrip (s : String) : String :=
  String.mk ((((s.data.map Char.toLower).dropWhile isPySpace).reverse.dropWhile isPySpace).reverse)

/-- Embedding of `classify_command`: lowercase and strip, then first matching table wins
(destructive before write, default read). -/
def classify_command (command : String) : ActionType :=
  let commandLower := pyLowerStrip command
  if DESTRUCTIVE_KEYWORDS.any (fun r => reSearch r commandLower) then .destructive
  else if WRITE_KEYWORDS.any (fun r => reSearch r commandLower) then .write
  else .read

/-! ## `config/schema.py` -/

/-- Embedding of `PolicyCondition`: absent (or empty) fields are wildcards. -/
structure PolicyCondition where
  env : Option String := Option.none
  action_type : Option String := Option.none
  target_count : Option String := Option.none
deriving Repr, DecidableEq

/-- Embedding of `PolicyRule`. -/
structure PolicyRule where
  name : String
  condition : PolicyCondition
  effect : String
  message : String
deriving Repr, DecidableEq

/-! ## `policy/engine.py` -/

/-- Embedding of `PolicyEffect` enumeration. -/
inductive PolicyEffect where
  | allow
  | requireConfirm
  | deny
deriving Repr, DecidableEq

/-- The `.value` of the string enum. -/
def PolicyEffect.value : PolicyEffect → String
  | .allow => "allow"
  | .requireConfirm => "require_confirm"
  | .deny => "deny"

/-- Embedding of `PolicyEffect(s)`: `Option.none` models the raised `ValueError` on an
unknown effect string. -/
def PolicyEffect.fromString? (s : String) : Option PolicyEffect :=
  if s = "allow" then some .allow
  else if s = "require_confirm" then some .requireConfirm
  else if s = "deny" then some .deny
  else Option.none

/-- Embedding of `TOKEN_TTL_SECONDS`. -/
def TOKEN_TTL_SECONDS : ℚ := 300

/-- The record stored per confirm token: rule name, original args and the
`time.time()` at mint. -/
structure TokenData where
  rule : String
  args : PyDict
  created_at : ℚ

/-- Embedding of `self._confirm_tokens`: a Python dict, keys kept unique. -/
abbrev TokenTable := List (String × TokenData)

/-- Embedding of `token in table`. -/
def tableMem (t : TokenTable) (k : String) : Bool :=
  t.any (·.1 == k)

/-- Embedding of `table[token]` as an option. -/
def tableGet? (t : TokenTable) (k : String) : Option TokenData :=
  (t.find? (·.1 == k)).map (·.2)

/-- Embedding of `del table[token]` / the removal of `pop`. -/
def tableEraseKey (t : TokenTable) (k : String) : TokenTable :=
  t.eraseP (·.1 == k)

/-- Embedding of `table[token] = data`: replace in place, or append a new binding. -/
def tableSet (t : TokenTable) (k : String) (v : TokenData) : TokenTable :=
  if tableMem t k then t.map (fun p => if p.1 == k then (k, v) else p)
  else t ++ [(k, v)]

/-- Embedding of `PolicyEngine.validate_confirm_token`: validity plus the updated table
(expired tokens are deleted on inspection). `now` is `time.time()` at the
call. -/
def validate_confirm_token (tokens : TokenTable) (now : ℚ) (token : String) :
    Bool × TokenTable :=
  match tableGet? tokens token with
  | Option.none => (false, tokens)
  | some td =>
    if now - td.created_at > TOKEN_TTL_SECONDS then (false, tableEraseKey tokens token)
    else (true, tokens)

/-- Embedding of `PolicyEngine.consume_confirm_token`: `self._confirm_tokens.pop(token, None)`. -/
def consume_confirm_token (tokens : TokenTable) (token : String) :
    Option TokenData × TokenTable :=
  match tableGet? tokens token with
  | Option.none => (Option.none, tokens)
  | some td => (some td, tableEraseKey tokens token)

/-- Embedding of `PolicyEngine._generate_confirm_token`; the random suffix produced by
`secrets.token_hex(16)` is supplied by the caller of the model. -/
def generate_confirm_token (tokens : TokenTable) (now : ℚ) (rule : PolicyRule)
    (args : PyDict) (hex : String) : String × TokenTable :=
  let token := "conf_" ++ hex
  (token, tableSet tokens token ⟨rule.name, args, now⟩)

/-- Embedding of `int(s)` for the comparator threshold: `Option.none` models the raised
`ValueError`. -/
def pyInt? (s : String) : Option Int :=
  let t := (s.data.dropWhile isPySpace).reverse.dropWhile isPySpace |>.reverse
  let signDigits : Int × List Char :=
    match t with
    | '-' :: rest => (-1, rest)
    | '+' :: rest => (1, rest)
    | l => (1, l)
  if signDigits.2 ≠ [] ∧ signDigits.2.all Char.isDigit then
    some (signDigits.1 *
      (signDigits.2.foldl (fun acc c => acc * 10 + (c.toNat - '0'.toNat)) 0 : Nat))
  else Option.none

/-- Embedding of `s.startswith(p)` over character lists. -/
def strStartsWith (s p : String) : Bool :=
  s.data.take p.data.length == p.data

/-- Embedding of `s[n:]`. -/
def strDrop (s : String) (n : Nat) : String :=
  String.mk (s.data.drop n)

/-- Embedding of `PolicyEngine._check_target_count`; `Option.none` models the
`ValueError` raised by `int()` on a malformed comparator. -/
def check_target_count (count : Int) (condition : String) : Option Bool :=
  if strStartsWith condition ">=" then (pyInt? (strDrop condition 2)).map (count ≥ ·)
  else if strStartsWith condition ">" then (pyInt? (strDrop condition 1)).map (count > ·)
  else if strStartsWith condition "<=" then (pyInt? (strDrop condition 2)).map (count ≤ ·)
  else if strStartsWith condition "<" then (pyInt? (strDrop condition 1)).map (count < ·)
  else if strStartsWith condition "==" then (pyInt? (strDrop condition 2)).map (count = ·)
  else (pyInt? condition).map (count = ·)

/-- Embedding of `PolicyEngine._match_rule`; `Option.none` models a raised exception.
Empty condition strings are falsy and therefore wildcards. -/
def match_rule (rule : PolicyRule) (env : String) (actionType : Option ActionType)
    (targetCount : Int) : Option Bool :=
  let c := rule.condition
  let envFail : Bool :=
    match c.env with
    | some s => !s.isEmpty && s != env
    | Option.none => false
  if envFail then some false
  else
    let atFail : Bool :=
      match c.action_type with
      | some s =>
        if s.isEmpty then false
        else
          match actionType with
          | Option.none => true
          | some a => s != a.value
      | Option.none => false
    if atFail then some false
    else
      match c.target_count with
      | some s =>
        if s.isEmpty then some true
        else check_target_count targetCount s
      | Option.none => some true

/-- Embedding of `PolicyEngine._get_target_count`; `Option.none` models the `TypeError`
of `len()` on a value without a length. -/
def get_target_count (toolName : String) (args : PyDict) : Option Int :=
  if toolName = "ssh_exec" then some 1
  else if toolName = "ssh_exec_batch" then
    match dictGetD args "hosts" (.list []) with
    | .str s => some s.length
    | .list xs => some xs.length
    | .dict xs => some xs.length
    | _ => Option.none
  else some 0

/-- Embedding of `PolicyEngine._create_decision` result record. -/
structure PolicyDecision where
  effect : PolicyEffect
  message : String
  triggered_rule : Option String := Option.none
  confirm_token : Option String := Option.none
  risk_level : String := "low"
  metadata : Option PyDict := Option.none

/-- Embedding of `PolicyEngine._create_decision`; `Option.none` models the `ValueError`
raised by `PolicyEffect(rule.effect)`, before any token is minted. -/
def create_decision (tokens : TokenTable) (now : ℚ) (hex : String)
    (rule : PolicyRule) (env : String) (actionType : Option ActionType)
    (args : PyDict) : Option PolicyDecision × TokenTable :=
  match PolicyEffect.fromString? rule.effect with
  | Option.none => (Option.none, tokens)
  | some effect =>
    let minted : Option String × TokenTable :=
      if effect = .requireConfirm then
        let g := generate_confirm_token tokens now rule args hex
        (some g.1, g.2)
      else (Option.none, tokens)
    let riskLevel : String :=
      match actionType with
      | some .destructive => if env = "prod" then "critical" else "high"
      | some .write => if env = "prod" then "high" else "medium"
      | _ => "low"
    (some { effect := effect
            message := rule.message
            triggered_rule := some rule.name
            confirm_token := minted.1
            risk_level := riskLevel
            metadata := some
              [("env", .str env),
               ("action_type",
                 match actionType with
                 | some a => .str a.value
                 | Option.none => .null)] },
      minted.2)

/-- First rule whose condition matches, iterating in configured order;
outer `Option.none` models a raised exception, inner `Option.none` means no
rule fired. -/
def first_matching_rule (rules : List PolicyRule) (env : String)
    (actionType : Option ActionType) (targetCount : Int) :
    Option (Option PolicyRule) :=
  match rules with
  | [] => some Option.none
  | r :: rest =>
    match match_rule r env actionType targetCount with
    | Option.none => Option.none
    | some true => some (some r)
    | some false => first_matching_rule rest env actionType targetCount

/-- The environment resolution step of `check`: `if not env:
env = args.get("env", "dev")` (`None` and the empty string are falsy). -/
def resolve_env (args : PyDict) (env : Option String) : String :=
  match env with
  | some e => if e.isEmpty then dictGetStrD args "env" "dev" else e
  | Option.none => dictGetStrD args "env" "dev"

/-- The action-type inference step of `check`: classify `args.command`
only when `action_type` is absent and the tool is `ssh_exec`. -/
def resolve_action_type (toolName : String) (args : PyDict)
    (actionType : Option ActionType) : Option ActionType :=
  if actionType.isNone ∧ toolName = "ssh_exec" then
    some (classify_command (dictGetStrD args "command" ""))
  else actionType

/-- Embedding of `PolicyEngine.check`. `rules` is `config.policies`; `now` and `hex`
supply `time.time()` and the random token suffix; the `Option.none`
decision models a raised exception (the table is then untouched, since
every raise happens before the mint). -/
def check (rules : List PolicyRule) (tokens : TokenTable) (now : ℚ) (hex : String)
    (toolName : String) (args : PyDict) (env : Option String)
    (actionType : Option ActionType) : Option PolicyDecision × TokenTable :=
  let envR : String := resolve_env args env
  let actionTypeR : Option ActionType := resolve_action_type toolName args actionType
  match get_target_count toolName args with
  | Option.none => (Option.none, tokens)
  | some targetCount =>
    match first_matching_rule rules envR actionTypeR targetCount with
    | Option.none => (Option.none, tokens)
    | some (some rule) => create_decision tokens now hex rule envR actionTypeR args
    | some Option.none =>
      (some { effect := .allow, message := "操作已允许", risk_level := "low" }, tokens)

/-! ## `tools/base.py` -/

/-- Embedding of `ToolStatus` enumeration. -/
inductive ToolStatus where
  | success
  | error
  | pendingConfirm
deriving Repr, DecidableEq

/-- The `.value` of the string enum. -/
def ToolStatus.value : ToolStatus → String
  | .success => "success"
  | .error => "error"
  | .pendingConfirm => "pending_confirm"

/-- Embedding of `ToolResult` dataclass. -/
structure ToolResult where
  status : ToolStatus
  output : String := ""
  error : String := ""
  exit_code : Option Int := Option.none
  duration_sec : ℚ := 0
  metadata : Option PyDict := Option.none
  confirm_token : Option String := Option.none
  preview : Option PyDict := Option.none

/-- An `MCPTool` instance, identified by its `name` property; `tag`
distinguishes distinct instances that share a name. -/
structure MCPToolM where
  name : String
  tag : Nat
deriving Repr, DecidableEq

/-- Embedding of `ToolRegistry._tools`: a Python dict keyed by tool name. -/
abbrev ToolRegistry := List (String × MCPToolM)

/-- Embedding of `ToolRegistry.register`: `self._tools[tool.name] = tool`. -/
def register (reg : ToolRegistry) (tool : MCPToolM) : ToolRegistry :=
  if reg.any (·.1 == tool.name) then
    reg.map fun p => if p.1 == tool.name then (tool.name, tool) else p
  else reg ++ [(tool.name, tool)]

/-- Embedding of `ToolRegistry.get`. -/
def registryGet? (reg : ToolRegistry) (name : String) : Option MCPToolM :=
  (reg.find? (·.1 == name)).map (·.2)

/-! ## `audit/logger.py` -/

/-- An `AuditToolCall` row. Updatable fields are kept as `PyVal` because
`update_tool_call` assigns via `setattr`. -/
structure AuditToolCallRow where
  call_id : String
  session_id : String
  tool_name : String
  tool_args : PyDict
  status : String
  exit_code : PyVal := .null
  stdout_summary : PyVal := .null
  stderr : PyVal := .null
  duration_sec : PyVal := .null
  extra_data : PyVal := .null

/-- Embedding of `AuditLogger.add_tool_call`: inserts a new row with the given args,
unmodified. -/
def add_tool_call (db : List AuditToolCallRow) (call_id session_id tool_name : String)
    (tool_args : PyDict) (status : String) : List AuditToolCallRow :=
  db ++ [{ call_id := call_id, session_id := session_id, tool_name := tool_name,
           tool_args := tool_args, status := status }]

/-- One `setattr` step of `update_tool_call`: string values of the
`stdout_summary` key are first passed through `mask_sensitive`; unknown
keys are ignored (`hasattr` is false). -/
def applyToolCallKw (r : AuditToolCallRow) (kv : String × PyVal) : AuditToolCallRow :=
  let k := kv.1
  let v : PyVal :=
    if k = "stdout_summary" then
      match kv.2 with
      | .str s => .str (mask_sensitive s)
      | w => w
    else kv.2
  if k = "status" then
    match v with
    | .str s => { r with status := s }
    | _ => r
  else if k = "exit_code" then { r with exit_code := v }
  else if k = "stdout_summary" then { r with stdout_summary := v }
  else if k = "stderr" then { r with stderr := v }
  else if k = "duration_sec" then { r with duration_sec := v }
  else if k = "extra_data" then { r with extra_data := v }
  else r

/-- Patch the first row with the given `call_id` (the `.first()` row). -/
def updateFirstRow (db : List AuditToolCallRow) (call_id : String)
    (f : AuditToolCallRow → AuditToolCallRow) : List AuditToolCallRow :=
  match db with
  | [] => []
  | r :: rest =>
    if r.call_id = call_id then f r :: rest
    else r :: updateFirstRow rest call_id f

/-- Embedding of `AuditLogger.update_tool_call`. -/
def update_tool_call (db : List AuditToolCallRow) (call_id : String)
    (kwargs : List (String × PyVal)) : List AuditToolCallRow :=
  updateFirstRow db call_id fun r => kwargs.foldl applyToolCallKw r

/-! ## `agent/executor.py` -/

/-- The single-quote character, for messages that quote a name. -/
def sq : String := String.mk [Char.ofNat 39]

/-- Opening and closing braces, for the Python repr of dicts. -/
def lbrace : String := String.mk [Char.ofNat 123]

def rbrace : String := String.mk [Char.ofNat 125]

mutual

/-- Python `repr` of a value (containers quote their strings). -/
def pyRepr : PyVal → String
  | .str s => sq ++ s ++ sq
  | .int n => toString n
  | .num q => toString q
  | .bool b => if b then "True" else "False"
  | .list xs => "[" ++ String.intercalate ", " (pyReprList xs) ++ "]"
  | .dict xs => lbrace ++ String.intercalate ", " (pyReprDict xs) ++ rbrace
  | .null => "None"

/-- Embedding of `repr` of each list element. -/
def pyReprList : List PyVal → List String
  | [] => []
  | v :: vs => pyRepr v :: pyReprList vs

/-- Embedding of `repr` of each dict binding. -/
def pyReprDict : List (String × PyVal) → List String
  | [] => []
  | kv :: kvs => (sq ++ kv.1 ++ sq ++ ": " ++ pyRepr kv.2) :: pyReprDict kvs

end

/-- Python `str` of a value. -/
def pyStr : PyVal → String
  | .str s => s
  | v => pyRepr v

/-- Embedding of `str` of an optional string, as in an f-string over `confirm_token`. -/
def pyStrOptStr : Option String → String
  | some s => s
  | Option.none => "None"

/-- Embedding of `ToolExecutor._format_tool_result`. -/
def format_tool_result (r : ToolResult) : String :=
  match r.status with
  | .success => r.output
  | .error => "错误: " ++ r.error ++ "\n输出: " ++ r.output
  | .pendingConfirm =>
    let preview := r.preview.getD []
    let lines := ["⚠️  需要用户确认："]
      ++ preview.map (fun kv => "  " ++ kv.1 ++ ": " ++ pyStr kv.2)
      ++ ["\n确认 token: " ++ pyStrOptStr r.confirm_token]
      ++ ["请确认后使用此 token 重新调用"]
    String.intercalate "\n" lines

/-- One inbound tool call, as produced by a provider. -/
structure ToolCallIn where
  id : Option String
  name : String
  arguments : PyDict

/-- A write issued to the audit logger by the executor. -/
inductive AuditEvent where
  | addToolCall (call_id session_id tool_name : String) (tool_args : PyDict) (status : String)
  | updateToolCall (call_id : String) (kwargs : List (String × PyVal))

/-- Outcome of `tool.execute(**tool_args)`: a result, or a raised
exception with its message. -/
inductive ExecOutcome where
  | ok (r : ToolResult)
  | exn (msg : String)

/-- One entry of the result list of `execute_tool_calls`. -/
inductive ExecResult where
  | notFound (tool_use_id error : String)
  | done (tool_use_id status content : String) (raw : ToolResult)
  | failed (tool_use_id error : String)

/-- Embedding of `None` or an int, as stored in the audit kwargs. -/
def pyOfOptInt : Option Int → PyVal
  | some n => .int n
  | Option.none => .null

/-- Embedding of `None` or a dict, as stored in the audit kwargs. -/
def pyOfOptDict : Option PyDict → PyVal
  | some d => .dict d
  | Option.none => .null

/-- Loop body of `ToolExecutor.execute_tool_calls`. `execOracle` models
`tool.execute`; `idGen i` and `callIdGen i` model the `secrets.token_hex`
draws for the i-th call. -/
def execute_tool_calls_go (registry : ToolRegistry)
    (execOracle : String → PyDict → ExecOutcome)
    (idGen callIdGen : Nat → String) (session_id : String) :
    Nat → List ToolCallIn → List ExecResult × List AuditEvent
  | _, [] => ([], [])
  | i, c :: rest =>
    let tool_use_id := c.id.getD (idGen i)
    match registryGet? registry c.name with
    | Option.none =>
      let next := execute_tool_calls_go registry execOracle idGen callIdGen session_id (i + 1) rest
      (.notFound tool_use_id ("Tool " ++ sq ++ c.name ++ sq ++ " 未找到") :: next.1, next.2)
    | some _tool =>
      let call_id := "call_" ++ callIdGen i
      let addEv := AuditEvent.addToolCall call_id session_id c.name c.arguments "pending"
      match execOracle c.name c.arguments with
      | .ok r =>
        let updEv := AuditEvent.updateToolCall call_id
          [("status", .str r.status.value),
           ("exit_code", pyOfOptInt r.exit_code),
           ("stdout_summary", .str r.output),
           ("stderr", .str r.error),
           ("duration_sec", .num r.duration_sec),
           ("extra_data", pyOfOptDict r.metadata)]
        let next := execute_tool_calls_go registry execOracle idGen callIdGen session_id (i + 1) rest
        (.done tool_use_id r.status.value (format_tool_result r) r :: next.1,
          addEv :: updEv :: next.2)
      | .exn msg =>
        let updEv := AuditEvent.updateToolCall call_id
          [("status", .str "error"), ("stderr", .str msg)]
        let next := execute_tool_calls_go registry execOracle idGen callIdGen session_id (i + 1) rest
        (.failed tool_use_id ("Tool 执行失败: " ++ msg) :: next.1,
          addEv :: updEv :: next.2)

/-- Embedding of `ToolExecutor.execute_tool_calls`: the per-call results, plus the audit
writes in issue order. -/
def execute_tool_calls (registry : ToolRegistry)
    (execOracle : String → PyDict → ExecOutcome)
    (idGen callIdGen : Nat → String) (session_id : String)
    (tool_calls : List ToolCallIn) : List ExecResult × List AuditEvent :=
  execute_tool_calls_go registry execOracle idGen callIdGen session_id 0 tool_calls

/-! ## Provider response normalization -/

/-- A normalized tool call. -/
structure ToolCallN where
  id : String
  name : String
  arguments : PyVal

/-- Normalized usage counters. -/
structure UsageN where
  input_tokens : Nat
  output_tokens : Nat
  total_tokens : Nat
deriving Repr, DecidableEq

/-- A normalized provider response (the `raw_response` echo of the vendor
object is omitted from the model). -/
structure NormResponse where
  content : String
  tool_calls : List ToolCallN
  model : String
  usage : UsageN
  stop_reason : String

/-! ### `agent/claude.py` -/

/-- A content block of an Anthropic message. -/
inductive ClaudeBlock where
  | text (t : String)
  | toolUse (id name : String) (input : PyVal)

/-- The raw Anthropic response fields read by the normalizer. -/
structure ClaudeMessage where
  content : List ClaudeBlock
  stop_reason : String
  model : String
  input_tokens : Nat
  output_tokens : Nat

/-- Embedding of `ClaudeProvider._normalize_response`. -/
def claude_normalize_response (response : ClaudeMessage) : NormResponse :=
  let folded := response.content.foldl
    (fun (acc : String × List ToolCallN) block =>
      match block with
      | .text t => (acc.1 ++ t, acc.2)
      | .toolUse id name input => (acc.1, acc.2 ++ [⟨id, name, input⟩]))
    ("", [])
  { content := folded.1
    tool_calls := folded.2
    model := response.model
    usage := { input_tokens := response.input_tokens
               output_tokens := response.output_tokens
               total_tokens := response.input_tokens + response.output_tokens }
    stop_reason := response.stop_reason }

/-! ### `agent/gemini.py` -/

/-- A protobuf `Value` tree as delivered in `function_call.args`. -/
inductive ProtoVal where
  | str (s : String)
  | num (q : ℚ)
  | bool (b : Bool)
  | struct (fields : List (String × ProtoVal))
  | listv (vs : List ProtoVal)
  | null

mutual

/-- Embedding of `_convert_proto_value`: recursively convert a protobuf tree to plain
values (the tagged-union branch of the source). -/
def convert_proto_value : ProtoVal → PyVal
  | .str s => .str s
  | .num q => .num q
  | .bool b => .bool b
  | .struct fields => .dict (convert_proto_fields fields)
  | .listv vs => .list (convert_proto_list vs)
  | .null => .null

/-- Conversion of the fields of a `Struct`. -/
def convert_proto_fields : List (String × ProtoVal) → List (String × PyVal)
  | [] => []
  | kv :: kvs => (kv.1, convert_proto_value kv.2) :: convert_proto_fields kvs

/-- Conversion of the values of a `ListValue`. -/
def convert_proto_list : List ProtoVal → List PyVal
  | [] => []
  | v :: vs => convert_proto_value v :: convert_proto_list vs

end

/-- A `function_call` part field. -/
structure GeminiFunctionCall where
  name : String
  args : Option ProtoVal

/-- One part of a Gemini candidate content. -/
structure GeminiPart where
  text : Option String
  function_call : Option GeminiFunctionCall

/-- A Gemini candidate. -/
structure GeminiCandidate where
  parts : List GeminiPart
  finish_reason : Option String

/-- Embedding of `usage_metadata` fields (absent counters arrive as `None`). -/
structure GeminiUsageMeta where
  prompt_token_count : Option Nat
  candidates_token_count : Option Nat
  total_token_count : Option Nat

/-- The raw Gemini response fields read by the normalizer. -/
structure GeminiResponse where
  candidates : List GeminiCandidate
  usage_metadata : Option GeminiUsageMeta

/-- Embedding of `GeminiProvider._normalize_response` for a model named `modelName`.
Empty text parts are skipped (they are falsy); a `function_call` with no
args yields empty arguments. -/
def gemini_normalize_response (modelName : String) (response : GeminiResponse) :
    NormResponse :=
  let extracted : String × List ToolCallN :=
    match response.candidates with
    | [] => ("", [])
    | candidate :: _ =>
      candidate.parts.foldl
        (fun (acc : String × List ToolCallN) part =>
          let acc :=
            match part.text with
            | some t => if t.isEmpty then acc else (acc.1 ++ t, acc.2)
            | Option.none => acc
          match part.function_call with
          | some fc =>
            let args :=
              match fc.args with
              | some v => convert_proto_value v
              | Option.none => .dict []
            (acc.1, acc.2 ++ [⟨"call_" ++ fc.name ++ "_" ++ toString acc.2.length, fc.name, args⟩])
          | Option.none => acc)
        ("", [])
  let stop_reason : String :=
    match response.candidates with
    | [] => "stop"
    | candidate :: _ =>
      match candidate.finish_reason with
      | Option.none => "stop"
      | some fr =>
        if fr = "STOP" then "stop"
        else if fr = "MAX_TOKENS" then "max_tokens"
        else if fr = "SAFETY" then "safety"
        else if !extracted.2.isEmpty then "tool_use"
        else "stop"
  let usage : UsageN :=
    match response.usage_metadata with
    | Option.none => ⟨0, 0, 0⟩
    | some um =>
      ⟨um.prompt_token_count.getD 0, um.candidates_token_count.getD 0,
        um.total_token_count.getD 0⟩
  { content := extracted.1
    tool_calls := extracted.2
    model := modelName
    usage := usage
    stop_reason := stop_reason }

/-! ### `agent/zhipu.py` -/

/-- The `function` field of a Zhipu tool call; `arguments` may arrive as a
dict or as a JSON string. -/
structure ZhipuFunction where
  name : String
  arguments : PyVal

/-- One raw Zhipu tool call. -/
structure ZhipuToolCall where
  id : String
  function : ZhipuFunction

/-- The message of a Zhipu choice. -/
structure ZhipuMessage where
  content : Option String
  tool_calls : Option (List ZhipuToolCall)

/-- One Zhipu choice. -/
structure ZhipuChoice where
  message : ZhipuMessage
  finish_reason : Option String

/-- The raw Zhipu response fields read by the normalizer. -/
structure ZhipuResponse where
  choices : List ZhipuChoice
  prompt_tokens : Option Nat
  completion_tokens : Option Nat
  total_tokens : Option Nat
  model : Option String

/-- Embedding of `ZhipuProvider._normalize_response` for a model named `modelName`;
`jsonLoads?` models `json.loads` on string arguments (`Option.none` models
`JSONDecodeError`). -/
def zhipu_normalize_response (modelName : String)
    (jsonLoads? : String → Option PyVal) (response : ZhipuResponse) : NormResponse :=
  match response.choices with
  | [] =>
    { content := "", tool_calls := [], model := modelName
      usage := ⟨0, 0, 0⟩, stop_reason := "error" }
  | choice :: _ =>
    let text_content := (choice.message.content.getD "")
    let tool_calls : List ToolCallN :=
      match choice.message.tool_calls with
      | Option.none => []
      | some tcs =>
        tcs.map fun tc =>
          let arguments :=
            match tc.function.arguments with
            | .str s =>
              match jsonLoads? s with
              | some v => v
              | Option.none => .dict [("raw", .str s)]
            | v => v
          ⟨tc.id, tc.function.name, arguments⟩
    let stop_reason : String :=
      match choice.finish_reason with
      | Option.none => "stop"
      | some fr =>
        if fr = "tool_calls" then "tool_use"
        else if fr = "length" then "max_tokens"
        else if fr = "" then "stop"
        else fr
    { content := text_content
      tool_calls := tool_calls
      model := response.model.getD modelName
      usage := ⟨response.prompt_tokens.getD 0, response.completion_tokens.getD 0,
        response.total_tokens.getD 0⟩
      stop_reason := stop_reason }

/-! ## `tools/ssh.py`: `SSHExecBatchTool.execute` -/

/-- Model of `asyncio.gather`: the tasks are spawned in list order and
complete in the order given by `sched` (the completion schedule); each
completion stores its result at the index of its task, and the returned
list is read out in task order. -/
def gatherSched (tasks : List ToolResult) (sched : List Nat) : List ToolResult :=
  let completed := sched.filterMap fun i => (tasks.get? i).map fun t => (i, t)
  (List.range tasks.length).filterMap fun j => (completed.find? (·.1 == j)).map (·.2)

/-- The aggregation tail of `SSHExecBatchTool.execute` (success counting,
per-host output lines, metadata). -/
def batch_aggregate (hosts : List String) (results : List ToolResult) : ToolResult :=
  let success_count := (results.filter fun r => r.status == .success).length
  let error_count := results.length - success_count
  let output_lines := (hosts.zip results).map fun hr =>
    (if hr.2.status == .success then "✅" else "❌") ++ " " ++ hr.1 ++ ": "
      ++ (if hr.2.output.isEmpty then hr.2.error else hr.2.output)
  { status := if error_count == 0 then .success else .error
    output := String.intercalate "\n" output_lines
    metadata := some
      [("total", .int hosts.length),
       ("success", .int success_count),
       ("error", .int error_count),
       ("results", .list ((hosts.zip results).map fun hr =>
          .dict [("host", .str hr.1),
                 ("status", .str hr.2.status.value),
                 ("exit_code", pyOfOptInt hr.2.exit_code)]))] }

/-- The `pending_confirm` result of `SSHExecBatchTool.execute`. -/
def batch_pending (hosts : List String) (command : String)
    (decision : PolicyDecision) : ToolResult :=
  { status := .pendingConfirm
    confirm_token := decision.confirm_token
    preview := some
      [("host_count", .int hosts.length),
       ("hosts", .list (hosts.map .str)),
       ("command", .str command),
       ("message", .str decision.message)] }

/-- The execution-and-aggregation tail of `SSHExecBatchTool.execute`
(parallel gather or sequential map, then aggregation). -/
def ssh_exec_batch_run (execHost : String → ToolResult) (sched : List Nat)
    (hosts : List String) (parallel : Bool) : ToolResult :=
  batch_aggregate hosts
    (if parallel then gatherSched (hosts.map execHost) sched else hosts.map execHost)

/-- Embedding of `confirm_token` truthiness: `not confirm_token`. -/
def tokenFalsy : Option String → Bool
  | Option.none => true
  | some s => s.isEmpty

/-- Embedding of `SSHExecBatchTool.execute`. `execHost` models the per-host
`SSHExecTool.execute` call, `sched` the completion order of the concurrent
fan-out. The engine state (`rules`, `tokens`, `now`, `hex`) is threaded
through the policy check, validation and consumption; the `Option.none`
result models a propagated exception from `check`. -/
def ssh_exec_batch_execute (rules : List PolicyRule) (tokens : TokenTable)
    (now : ℚ) (hex : String) (execHost : String → ToolResult) (sched : List Nat)
    (hosts : List String) (command : String) (parallel : Bool)
    (confirm_token : Option String) : Option ToolResult × TokenTable :=
  match check rules tokens now hex "ssh_exec_batch"
      [("hosts", .list (hosts.map .str)), ("command", .str command)]
      Option.none Option.none with
  | (Option.none, tt) => (Option.none, tt)
  | (some decision, tt) =>
    if decision.effect == .requireConfirm then
      if tokenFalsy confirm_token then (some (batch_pending hosts command decision), tt)
      else
        if !(validate_confirm_token tt now (confirm_token.getD "")).1 then
          (some (batch_pending hosts command decision),
            (validate_confirm_token tt now (confirm_token.getD "")).2)
        else
          (some (ssh_exec_batch_run execHost sched hosts parallel),
            (consume_confirm_token
              (validate_confirm_token tt now (confirm_token.getD "")).2
              (confirm_token.getD "")).2)
    else (some (ssh_exec_batch_run execHost sched hosts parallel), tt)

/-! ## `mcp/openai_compat.py`: `_agent_loop` -/

/-- A conversation entry as appended by the loop (`raw` stands for the
inbound request messages). -/
inductive ChatMsg where
  | raw (role content : String)
  | assistant (content : String)
  | toolResults (results : List (String × String))

/-- Fieldwise accumulation of usage counters. -/
def uadd (a b : UsageN) : UsageN :=
  ⟨a.input_tokens + b.input_tokens, a.output_tokens + b.output_tokens,
    a.total_tokens + b.total_tokens⟩

/-- The result-to-text selection of the loop body (`ToolResult` handling
plus the exception branch of the `try`). -/
def loop_tool_result_text (o : ExecOutcome) : String :=
  match o with
  | .ok r =>
    match r.status with
    | .error =>
      if !r.error.isEmpty then r.error
      else if !r.output.isEmpty then r.output
      else "工具执行失败（无详细错误信息）"
    | .pendingConfirm =>
      match r.preview with
      | some p => if p.isEmpty then "需要用户确认" else "⚠️ 需要确认: " ++ pyRepr (.dict p)
      | Option.none => "需要用户确认"
    | .success => r.output ++ (if !r.error.isEmpty then "\n[stderr]: " ++ r.error else "")
  | .exn msg => "错误: " ++ msg

/-- The cap-notice suffix appended to the last content. -/
def capSuffix (maxIterations : Nat) : String :=
  "\n\n⚠️ 达到最大迭代次数 (" ++ toString maxIterations ++ ")，任务可能未完成。"

/-- Loop body of `_agent_loop`: remaining iterations, conversation, last
response, accumulated usage. `provider` models `provider.chat` (closed
over `tools`), `callTool` models `mcp_registry.call_tool`. -/
def agent_loop_go (provider : List ChatMsg → NormResponse)
    (callTool : String → PyVal → ExecOutcome) (maxIterations : Nat) :
    Nat → List ChatMsg → Option NormResponse → UsageN → NormResponse
  | 0, _, finalResp, total =>
    match finalResp with
    | some r => { r with usage := total, content := r.content ++ capSuffix maxIterations }
    | Option.none =>
      { content := "⚠️ 达到最大迭代次数 (" ++ toString maxIterations ++ ")"
        tool_calls := [], model := "", usage := total, stop_reason := "stop" }
  | n + 1, conv, _, total =>
    let response := provider conv
    let total := uadd total response.usage
    if response.tool_calls.isEmpty then { response with usage := total }
    else
      let conv := conv ++ [ChatMsg.assistant response.content]
      let tool_results := response.tool_calls.map fun tc =>
        (tc.id, loop_tool_result_text (callTool tc.name tc.arguments))
      let conv := conv ++ [ChatMsg.toolResults tool_results]
      agent_loop_go provider callTool maxIterations n conv (some response) total

/-- Embedding of `_agent_loop`. -/
def agent_loop (provider : List ChatMsg → NormResponse)
    (callTool : String → PyVal → ExecOutcome) (maxIterations : Nat)
    (messages : List ChatMsg) : NormResponse :=
  agent_loop_go provider callTool maxIterations maxIterations messages Option.none ⟨0, 0, 0⟩

/-- One iteration step of the conversation (identity once the provider
stops emitting tool calls). -/
def loop_step (provider : List ChatMsg → NormResponse)
    (callTool : String → PyVal → ExecOutcome) (conv : List ChatMsg) : List ChatMsg :=
  let response := provider conv
  if response.tool_calls.isEmpty then conv
  else
    (conv ++ [ChatMsg.assistant response.content])
      ++ [ChatMsg.toolResults (response.tool_calls.map fun tc =>
            (tc.id, loop_tool_result_text (callTool tc.name tc.arguments)))]

/-- The conversation at the start of iteration `i` of the (unbounded)
unfolding of the loop. -/
def conv_at (provider : List ChatMsg → NormResponse)
    (callTool : String → PyVal → ExecOutcome) (messages : List ChatMsg) :
    Nat → List ChatMsg
  | 0 => messages
  | i + 1 => loop_step provider callTool (conv_at provider callTool messages i)

/-- The iteration-indexed responses of the provider along the run. -/
def resp_at (provider : List ChatMsg → NormResponse)
    (callTool : String → PyVal → ExecOutcome) (messages : List ChatMsg)
    (i : Nat) : NormResponse :=
  provider (conv_at provider callTool messages i)

/-- The accumulated usage after iterations `0..k`, starting from `total`. -/
def cum_usage_from (provider : List ChatMsg → NormResponse)
    (callTool : String → PyVal → ExecOutcome) (conv : List ChatMsg)
    (total : UsageN) : Nat → UsageN
  | 0 => uadd total (provider conv).usage
  | k + 1 =>
    cum_usage_from provider callTool (loop_step provider callTool conv)
      (uadd total (provider conv).usage) k

/-! ## Interleavings of token-table calls -/

/-- One engine call that can touch the token table. -/
inductive TokenOp where
  | validate (now : ℚ) (token : String)
  | consume (token : String)

/-- The table after one call (results discarded). -/
def applyTokenOp (st : TokenTable) : TokenOp → TokenTable
  | .validate now tok => (validate_confirm_token st now tok).2
  | .consume tok => (consume_confirm_token st tok).2

/-- The table after a sequence of interleaved calls. -/
def applyTokenOps (st : TokenTable) (ops : List TokenOp) : TokenTable :=
  ops.foldl applyTokenOp st

/-! # Theorems -/

/-! ## Token-table lemmas -/

theorem tableMem_of_eraseKey {t : TokenTable} {k T : String}
    (h : tableMem (tableEraseKey t k) T = true) : tableMem t T = true := by
  rw [tableMem, List.any_eq_true]
  rw [tableMem, List.any_eq_true] at h
  obtain ⟨p, hp, hpT⟩ := h
  exact ⟨p, (List.eraseP_sublist t).subset hp, hpT⟩

theorem tableMem_eraseKey_false {t : TokenTable} {k T : String}
    (h : tableMem t T = false) : tableMem (tableEraseKey t k) T = false := by
  cases hmem : tableMem (tableEraseKey t k) T
  · rfl
  · rw [tableMem_of_eraseKey hmem] at h
    cases h

theorem tableGet?_eq_none_of_absent {st : TokenTable} {T : String}
    (h : tableMem st T = false) : tableGet? st T = Option.none := by
  rw [tableMem] at h
  rw [tableGet?, List.find?_eq_none.mpr, Option.map_none']
  intro x hx
  simpa using List.any_eq_false.mp h x hx

theorem absent_applyTokenOp {st : TokenTable} {T : String} (op : TokenOp)
    (h : tableMem st T = false) : tableMem (applyTokenOp st op) T = false := by
  cases op with
  | validate now tok =>
    unfold applyTokenOp validate_confirm_token
    cases hg : tableGet? st tok with
    | none => simpa [hg] using h
    | some td =>
      by_cases hex : now - td.created_at > TOKEN_TTL_SECONDS
      · simpa [hg, hex] using tableMem_eraseKey_false h
      · simpa [hg, hex] using h
  | consume tok =>
    unfold applyTokenOp consume_confirm_token
    cases hg : tableGet? st tok with
    | none => simpa [hg] using h
    | some td => simpa [hg] using tableMem_eraseKey_false h

theorem absent_applyTokenOps {T : String} (ops : List TokenOp) :
    ∀ {st : TokenTable}, tableMem st T = false →
      tableMem (applyTokenOps st ops) T = false := by
  induction ops with
  | nil => intro st h; simpa [applyTokenOps] using h
  | cons op rest ih =>
    intro st h
    have := ih (absent_applyTokenOp op h)
    simpa [applyTokenOps] using this

theorem tableMem_eraseKey_self {st : TokenTable} {T : String}
    (hnd : (st.map Prod.fst).Nodup) : tableMem (tableEraseKey st T) T = false := by
  induction st with
  | nil => rfl
  | cons a rest ih =>
    rw [List.map_cons, List.nodup_cons] at hnd
    obtain ⟨hhead, htail⟩ := hnd
    by_cases haT : a.1 = T
    · have herase : tableEraseKey (a :: rest) T = rest := by
        simp [tableEraseKey, List.eraseP_cons, haT]
      rw [herase]
      rw [tableMem, List.any_eq_false]
      intro p hp
      simp only [beq_iff_eq]
      intro hpT
      refine hhead ?_
      rw [haT, ← hpT]
      exact List.mem_map_of_mem Prod.fst hp
    · have hbeq : (a.1 == T) = false := by simpa using haT
      have herase : tableEraseKey (a :: rest) T =
          a :: tableEraseKey rest T := by
        simp [tableEraseKey, List.eraseP_cons, hbeq]
      rw [herase]
      have hih := ih htail
      simp only [tableMem, List.any_cons, hbeq, Bool.false_or] at hih ⊢
      exact hih

theorem consume_some_table {st : TokenTable} {T : String} {r : TokenData}
    {st' : TokenTable} (h : consume_confirm_token st T = (some r, st')) :
    st' = tableEraseKey st T := by
  unfold consume_confirm_token at h
  cases hg : tableGet? st T with
  | none => rw [hg] at h; cases h
  | some td =>
    rw [hg] at h
    cases h
    rfl

/-- C1: confirm tokens are single-use: once `consume_confirm_token`
returns the stored record for token `T`, any later
`validate_confirm_token T` returns false and any later
`consume_confirm_token T` returns `None`, under every interleaving of
validate and consume calls on the table. -/
theorem confirm_token_single_use
    (st : TokenTable) (T : String) (r : TokenData) (st' : TokenTable)
    (hnd : (st.map Prod.fst).Nodup)
    (h : consume_confirm_token st T = (some r, st'))
    (ops : List TokenOp) (now : ℚ) :
    (validate_confirm_token (applyTokenOps st' ops) now T).1 = false ∧
      (consume_confirm_token (applyTokenOps st' ops) T).1 = Option.none := by
  have habs : tableMem st' T = false := by
    rw [consume_some_table h]
    exact tableMem_eraseKey_self hnd
  have hget := tableGet?_eq_none_of_absent (absent_applyTokenOps ops habs)
  constructor
  · simp [validate_confirm_token, hget]
  · simp [consume_confirm_token, hget]

/-- Witness for C1 at a concrete table, token and interleaving. -/
theorem confirm_token_single_use_witness :
    (validate_confirm_token
        (applyTokenOps []
          [TokenOp.validate 5 "conf_aa", TokenOp.consume "conf_aa"]) 400 "conf_aa").1 = false ∧
      (consume_confirm_token
        (applyTokenOps []
          [TokenOp.validate 5 "conf_aa", TokenOp.consume "conf_aa"]) "conf_aa").1 = Option.none :=
  confirm_token_single_use [("conf_aa", ⟨"write-prod", [], 0⟩)] "conf_aa"
    ⟨"write-prod", [], 0⟩ [] (by decide) rfl
    [TokenOp.validate 5 "conf_aa", TokenOp.consume "conf_aa"] 400

/-- C2 counterexample: a token minted at time 0 is still returned by
`consume_confirm_token` at time 301, strictly more than 300 seconds after
mint, instead of `None`: the TTL is not enforced on consumption. -/
theorem confirm_token_ttl_consume_cex :
    ((301 : ℚ) - (0 : ℚ) > TOKEN_TTL_SECONDS) ∧
      (consume_confirm_token [("conf_ab", ⟨"r1", [], 0⟩)] "conf_ab").1 =
        some (⟨"r1", [], 0⟩ : TokenData) := by
  refine ⟨by norm_num [TOKEN_TTL_SECONDS], rfl⟩

/-- C2 amended: strictly more than 300 seconds after mint,
`validate_confirm_token` returns false and removes the token, but
`consume_confirm_token` performs no TTL check and still returns the stored
record. -/
theorem confirm_token_ttl_amended
    (st : TokenTable) (T : String) (td : TokenData) (now : ℚ)
    (hget : tableGet? st T = some td)
    (hexp : now - td.created_at > TOKEN_TTL_SECONDS) :
    validate_confirm_token st now T = (false, tableEraseKey st T) ∧
      (consume_confirm_token st T).1 = some td := by
  constructor
  · simp [validate_confirm_token, hget, hexp]
  · simp [consume_confirm_token, hget]

/-- Witness for the amended C2 at a concrete table and time. -/
theorem confirm_token_ttl_amended_witness :
    validate_confirm_token [("conf_ab", (⟨"r1", [], 0⟩ : TokenData))] 301 "conf_ab" =
        (false, tableEraseKey [("conf_ab", (⟨"r1", [], 0⟩ : TokenData))] "conf_ab") ∧
      (consume_confirm_token [("conf_ab", (⟨"r1", [], 0⟩ : TokenData))] "conf_ab").1 =
        some (⟨"r1", [], 0⟩ : TokenData) :=
  confirm_token_ttl_amended [("conf_ab", ⟨"r1", [], 0⟩)] "conf_ab" ⟨"r1", [], 0⟩ 301
    rfl (by norm_num [TOKEN_TTL_SECONDS])

/-! ## Registry lemmas -/

theorem find?_cons_pos {α : Type _} (p : α → Bool) (a : α) (l : List α)
    (h : p a = true) : List.find? p (a :: l) = some a :=
  List.find?_cons_of_pos l h

theorem find?_cons_neg {α : Type _} (p : α → Bool) (a : α) (l : List α)
    (h : p a = false) : List.find? p (a :: l) = List.find? p l :=
  List.find?_cons_of_neg l (by simp [h])

theorem find?_map_overwrite (n : String) (t : MCPToolM) :
    ∀ l : ToolRegistry, l.any (·.1 == n) = true →
      (l.map fun p => if p.1 == n then (n, t) else p).find? (·.1 == n) = some (n, t) := by
  intro l
  induction l with
  | nil => intro h; cases h
  | cons b rest ih =>
    intro h
    by_cases hb : (b.1 == n) = true
    · rw [List.map_cons, if_pos hb]
      exact find?_cons_pos (fun x => x.1 == n) (n, t) _ (by simp)
    · have hb' : (b.1 == n) = false := by simpa using hb
      rw [List.any_cons, hb', Bool.false_or] at h
      rw [List.map_cons, if_neg hb,
        find?_cons_neg (fun x => x.1 == n) b _ hb']
      exact ih h

theorem find?_map_overwrite_other (n k : String) (t : MCPToolM) (hk : k ≠ n) :
    ∀ l : ToolRegistry,
      (l.map fun p => if p.1 == n then (n, t) else p).find? (·.1 == k) =
        l.find? (·.1 == k) := by
  intro l
  induction l with
  | nil => rfl
  | cons b rest ih =>
    by_cases hb : (b.1 == n) = true
    · have hbk : (b.1 == k) = false := by
        have hbn : b.1 = n := by simpa using hb
        simp [hbn, Ne.symm hk]
      rw [List.map_cons, if_pos hb,
        find?_cons_neg (fun x => x.1 == k) (n, t) _ (by simp [Ne.symm hk]),
        find?_cons_neg (fun x => x.1 == k) b _ hbk, ih]
    · by_cases hbk : (b.1 == k) = true
      · rw [List.map_cons, if_neg hb,
          find?_cons_pos (fun x => x.1 == k) b _ hbk,
          find?_cons_pos (fun x => x.1 == k) b _ hbk]
      · rw [List.map_cons, if_neg hb,
          find?_cons_neg (fun x => x.1 == k) b _ (by simpa using hbk),
          find?_cons_neg (fun x => x.1 == k) b _ (by simpa using hbk), ih]

/-- C5 counterexample: registering a second tool named `mock_tool` over an
existing one does not fail: it silently replaces the first instance, so
the registry ends with the second instance as the only binding. -/
theorem register_duplicate_replaces_cex :
    register (register [] ⟨"mock_tool", 1⟩) ⟨"mock_tool", 2⟩ =
        [("mock_tool", ⟨"mock_tool", 2⟩)] ∧
      registryGet? (register (register [] ⟨"mock_tool", 1⟩) ⟨"mock_tool", 2⟩) "mock_tool" =
        some ⟨"mock_tool", 2⟩ :=
  ⟨rfl, rfl⟩

/-- C5 amended: `register` never reports an error; registering a tool
stores it under its name, replacing any previously registered tool of the
same name (last registration wins) and leaving every other binding
unchanged. -/
theorem register_overwrites (reg : ToolRegistry) (tool : MCPToolM) :
    registryGet? (register reg tool) tool.name = some tool ∧
      ∀ k, k ≠ tool.name → registryGet? (register reg tool) k = registryGet? reg k := by
  constructor
  · rw [register]
    by_cases hmem : reg.any (·.1 == tool.name) = true
    · rw [if_pos hmem, registryGet?, find?_map_overwrite _ _ _ hmem]
      rfl
    · rw [if_neg hmem, registryGet?, List.find?_append]
      have hnone : reg.find? (·.1 == tool.name) = Option.none := by
        rw [List.find?_eq_none]
        intro x hx
        exact fun hxx => hmem (List.any_eq_true.mpr ⟨x, hx, hxx⟩)
      rw [hnone]
      simp
  · intro k hk
    rw [register]
    by_cases hmem : reg.any (·.1 == tool.name) = true
    · rw [if_pos hmem, registryGet?, find?_map_overwrite_other _ _ _ hk]
      rfl
    · rw [if_neg hmem, registryGet?, List.find?_append]
      have htk : (tool.name == k) = false := by simpa using Ne.symm hk
      have htail : List.find? (fun x => x.1 == k) [(tool.name, tool)] = Option.none := by
        rw [find?_cons_neg (fun x => x.1 == k) (tool.name, tool) [] htk]
        rfl
      rw [htail, registryGet?]
      cases reg.find? (·.1 == k) <;> rfl

/-- Witness for the amended C5: overwrite and frame at a concrete
registry. -/
theorem register_overwrites_witness :
    registryGet?
        (register [("mock_tool", ⟨"mock_tool", 1⟩), ("other_tool", ⟨"other_tool", 7⟩)]
          ⟨"mock_tool", 2⟩) "mock_tool" = some ⟨"mock_tool", 2⟩ ∧
      registryGet?
        (register [("mock_tool", ⟨"mock_tool", 1⟩), ("other_tool", ⟨"other_tool", 7⟩)]
          ⟨"mock_tool", 2⟩) "other_tool" =
        registryGet? [("mock_tool", ⟨"mock_tool", 1⟩), ("other_tool", ⟨"other_tool", 7⟩)]
          "other_tool" :=
  ⟨(register_overwrites [("mock_tool", ⟨"mock_tool", 1⟩), ("other_tool", ⟨"other_tool", 7⟩)]
      ⟨"mock_tool", 2⟩).1,
    (register_overwrites [("mock_tool", ⟨"mock_tool", 1⟩), ("other_tool", ⟨"other_tool", 7⟩)]
      ⟨"mock_tool", 2⟩).2 "other_tool" (by decide)⟩

/-! ## Audit redaction -/

/-- C6 counterexample: masking "password: abc123" persists
"password=***MASKED***", and that string itself still matches the password
pattern the utility recognizes, so the persisted value is not free of the
recognized patterns. -/
theorem audit_redaction_cex :
    mask_sensitive "password: abc123" = "password=***MASKED***" ∧
      is_sensitive (mask_sensitive "password: abc123") = true := by
  exact ⟨by decide, by decide⟩

/-- C6 amended: every string written as `stdout_summary` through
`update_tool_call` is persisted as `mask_sensitive` of the written value
(each recognized occurrence replaced by its fixed replacement); the
persisted string may however itself still match the recognizing
patterns. -/
theorem update_tool_call_masks_stdout (db : List AuditToolCallRow)
    (call_id : String) (s : String) :
    update_tool_call db call_id [("stdout_summary", PyVal.str s)] =
      updateFirstRow db call_id
        (fun r => { r with stdout_summary := PyVal.str (mask_sensitive s) }) := by
  rfl

/-! ## Executor audit logging -/

/-- C3: evaluating the executor at the failing input: the first audit
write is `add_tool_call` with `tool_args` still containing the reserved
`_confirm_token` key and its clear value; nothing strips or redacts it. -/
theorem executor_logs_confirm_token :
    (execute_tool_calls [("ssh_exec", ⟨"ssh_exec", 0⟩)]
        (fun _ _ => .ok { status := .success, output := "ok" })
        (fun _ => "aaaa") (fun _ => "bbbb") "s1"
        [⟨some "tu1", "ssh_exec",
          [("host", .str "web1"), ("command", .str "systemctl restart nginx"),
           ("_confirm_token", .str "conf_abc123")]⟩]).2.head? =
      some (AuditEvent.addToolCall "call_bbbb" "s1" "ssh_exec"
        [("host", .str "web1"), ("command", .str "systemctl restart nginx"),
         ("_confirm_token", .str "conf_abc123")] "pending") ∧
      dictGet? [("host", .str "web1"), ("command", .str "systemctl restart nginx"),
          ("_confirm_token", .str "conf_abc123")] "_confirm_token" =
        some (.str "conf_abc123") :=
  ⟨rfl, rfl⟩

/-! ## Policy check: action inference and target counts -/

theorem resolve_action_type_other (t : String) (args : PyDict)
    (actionType : Option ActionType) (h : t ≠ "ssh_exec") :
    resolve_action_type t args actionType = actionType := by
  unfold resolve_action_type
  rw [if_neg]
  exact fun hc => h hc.2

/-- C8 counterexample: with a rule denying destructive actions, the batch
shell tool is allowed to run `rm -rf /` because `check` runs the action
classifier only when the tool name is `ssh_exec`; the identical
single-host call is denied. -/
theorem check_batch_no_inference_cex :
    ((check [⟨"no-destroy", ⟨Option.none, some "destructive", Option.none⟩, "deny", "forbidden"⟩]
        [] 0 "ab" "ssh_exec_batch"
        [("hosts", .list [.str "h1"]), ("command", .str "rm -rf /")]
        Option.none Option.none).1.map (·.effect)) = some .allow ∧
      classify_command "rm -rf /" = .destructive ∧
      ((check [⟨"no-destroy", ⟨Option.none, some "destructive", Option.none⟩, "deny", "forbidden"⟩]
        [] 0 "ab" "ssh_exec"
        [("command", .str "rm -rf /")]
        Option.none Option.none).1.map (·.effect)) = some .deny := by
  refine ⟨by decide, by decide, by decide⟩

/-- C8 amended: with `action_type` absent, `check` classifies
`args.command` exactly when the tool is `ssh_exec`; for `ssh_exec_batch`
no inference happens and any fired rule sees no action type (its decision
records `action_type = None`); the target count is 1 for `ssh_exec`,
`len(args.hosts)` for `ssh_exec_batch`, and 0 for every other tool. -/
theorem check_inference_amended (rules : List PolicyRule) (tokens : TokenTable)
    (now : ℚ) (hex : String) (args : PyDict) (env : Option String) :
    (check rules tokens now hex "ssh_exec" args env Option.none =
        check rules tokens now hex "ssh_exec" args env
          (some (classify_command (dictGetStrD args "command" "")))) ∧
      (∀ d, (check rules tokens now hex "ssh_exec_batch" args env Option.none).1 = some d →
        d.triggered_rule ≠ Option.none →
        ∃ m, d.metadata = some m ∧ dictGet? m "action_type" = some PyVal.null) ∧
      get_target_count "ssh_exec" args = some 1 ∧
      (∀ hosts, dictGet? args "hosts" = some (.list hosts) →
        get_target_count "ssh_exec_batch" args = some hosts.length) ∧
      (∀ t, t ≠ "ssh_exec" → t ≠ "ssh_exec_batch" → get_target_count t args = some 0) := by
  refine ⟨rfl, ?_, rfl, ?_, ?_⟩
  · intro d hd hdtr
    simp only [check] at hd
    rw [resolve_action_type_other "ssh_exec_batch" args Option.none (by decide)] at hd
    split at hd
    · cases hd
    · split at hd
      · cases hd
      · next rule _ =>
        unfold create_decision at hd
        split at hd
        · cases hd
        · simp only [] at hd
          cases hd
          exact ⟨_, rfl, rfl⟩
      · cases hd
        exact absurd rfl hdtr
  · intro hosts h
    simp [get_target_count, dictGetD, h]
  · intro t h1 h2
    simp [get_target_count, h1, h2]

/-- Witness for the amended C8 at a concrete rule set and argument
dicts. -/
theorem check_inference_amended_witness :
    (check [⟨"r", ⟨Option.none, Option.none, Option.none⟩, "require_confirm", "msg"⟩]
        [] 0 "ab" "ssh_exec" [("command", .str "rm -rf /")] Option.none Option.none =
      check [⟨"r", ⟨Option.none, Option.none, Option.none⟩, "require_confirm", "msg"⟩]
        [] 0 "ab" "ssh_exec" [("command", .str "rm -rf /")] Option.none
        (some (classify_command
          (dictGetStrD [("command", .str "rm -rf /")] "command" "")))) ∧
      get_target_count "ssh_exec" [("command", .str "rm -rf /")] = some 1 ∧
      get_target_count "ssh_exec_batch"
        [("hosts", .list [.str "h1", .str "h2"]), ("command", .str "uptime")] = some 2 ∧
      get_target_count "service_status" [("command", .str "uptime")] = some 0 := by
  refine ⟨(check_inference_amended
      [⟨"r", ⟨Option.none, Option.none, Option.none⟩, "require_confirm", "msg"⟩]
      [] 0 "ab" [("command", .str "rm -rf /")] Option.none).1,
    (check_inference_amended
      [⟨"r", ⟨Option.none, Option.none, Option.none⟩, "require_confirm", "msg"⟩]
      [] 0 "ab" [("command", .str "rm -rf /")] Option.none).2.2.1, ?_, ?_⟩
  · exact (check_inference_amended
      [⟨"r", ⟨Option.none, Option.none, Option.none⟩, "require_confirm", "msg"⟩]
      [] 0 "ab" [("hosts", .list [.str "h1", .str "h2"]), ("command", .str "uptime")]
      Option.none).2.2.2.1 [.str "h1", .str "h2"] rfl
  · exact (check_inference_amended
      [⟨"r", ⟨Option.none, Option.none, Option.none⟩, "require_confirm", "msg"⟩]
      [] 0 "ab" [("command", .str "uptime")]
      Option.none).2.2.2.2 "service_status" (by decide) (by decide)

/-! ## Policy check: token-table frame -/

theorem tableSet_absent (t : TokenTable) (k : String) (v : TokenData)
    (h : tableMem t k = false) : tableSet t k v = t ++ [(k, v)] := by
  rw [tableSet, h]
  simp

/-- Case characterization of `check`: a raised exception or a non-confirm
decision leaves the token table unchanged; a require-confirm decision
appends exactly the one fresh token it returns. -/
theorem check_cases (rules : List PolicyRule) (tokens : TokenTable)
    (now : ℚ) (hex : String) (toolName : String) (args : PyDict)
    (env : Option String) (actionType : Option ActionType)
    (hfresh : tableMem tokens ("conf_" ++ hex) = false) :
    (check rules tokens now hex toolName args env actionType = (Option.none, tokens)) ∨
      (∃ d, check rules tokens now hex toolName args env actionType = (some d, tokens) ∧
        d.effect ≠ .requireConfirm) ∨
      (∃ d ruleName,
        check rules tokens now hex toolName args env actionType =
          (some d, tokens ++ [("conf_" ++ hex, ⟨ruleName, args, now⟩)]) ∧
        d.effect = .requireConfirm ∧ d.confirm_token = some ("conf_" ++ hex) ∧
        d.triggered_rule = some ruleName) := by
  simp only [check]
  split
  · exact Or.inl rfl
  · split
    · exact Or.inl rfl
    · next rule heq =>
      unfold create_decision
      split
      · exact Or.inl rfl
      · next effect heqf =>
        by_cases heff : effect = PolicyEffect.requireConfirm
        · subst heff
          have hset : tableSet tokens ("conf_" ++ hex) ⟨rule.name, args, now⟩ =
              tokens ++ [("conf_" ++ hex, ⟨rule.name, args, now⟩)] :=
            tableSet_absent tokens ("conf_" ++ hex) ⟨rule.name, args, now⟩ hfresh
          refine Or.inr (Or.inr ?_)
          let D : PolicyDecision :=
            { effect := .requireConfirm
              message := rule.message
              triggered_rule := some rule.name
              confirm_token := some ("conf_" ++ hex)
              risk_level :=
                match resolve_action_type toolName args actionType with
                | some .destructive => if resolve_env args env = "prod" then "critical" else "high"
                | some .write => if resolve_env args env = "prod" then "high" else "medium"
                | _ => "low"
              metadata := some
                [("env", .str (resolve_env args env)),
                 ("action_type",
                   match resolve_action_type toolName args actionType with
                   | some a => .str a.value
                   | Option.none => PyVal.null)] }
          exact ⟨D, rule.name, by rw [← hset]; rfl, rfl, rfl, rfl⟩
        · refine Or.inr (Or.inl ?_)
          let D : PolicyDecision :=
            { effect := effect
              message := rule.message
              triggered_rule := some rule.name
              confirm_token := Option.none
              risk_level :=
                match resolve_action_type toolName args actionType with
                | some .destructive => if resolve_env args env = "prod" then "critical" else "high"
                | some .write => if resolve_env args env = "prod" then "high" else "medium"
                | _ => "low"
              metadata := some
                [("env", .str (resolve_env args env)),
                 ("action_type",
                   match resolve_action_type toolName args actionType with
                   | some a => .str a.value
                   | Option.none => PyVal.null)] }
          exact ⟨D, by rw [if_neg heff], by simpa using heff⟩
    · exact Or.inr (Or.inl ⟨_, rfl, by decide⟩)

/-- C10: `check` modifies the confirm-token table only when it must: an
exception or a non-require-confirm decision (the default allow included)
leaves the table completely unchanged; a require-confirm decision appends
exactly one fresh token (the one returned in `confirm_token`), removing or
modifying nothing. -/
theorem check_token_table_frame (rules : List PolicyRule) (tokens : TokenTable)
    (now : ℚ) (hex : String) (toolName : String) (args : PyDict)
    (env : Option String) (actionType : Option ActionType)
    (hfresh : tableMem tokens ("conf_" ++ hex) = false) :
    ((check rules tokens now hex toolName args env actionType).1 = Option.none →
        (check rules tokens now hex toolName args env actionType).2 = tokens) ∧
      (∀ d, (check rules tokens now hex toolName args env actionType).1 = some d →
        d.effect ≠ .requireConfirm →
        (check rules tokens now hex toolName args env actionType).2 = tokens) ∧
      (∀ d, (check rules tokens now hex toolName args env actionType).1 = some d →
        d.effect = .requireConfirm →
        d.confirm_token = some ("conf_" ++ hex) ∧
        ∃ ruleName, d.triggered_rule = some ruleName ∧
          (check rules tokens now hex toolName args env actionType).2 =
            tokens ++ [("conf_" ++ hex, ⟨ruleName, args, now⟩)]) := by
  rcases check_cases rules tokens now hex toolName args env actionType hfresh with
    h | ⟨d0, h, hne⟩ | ⟨d0, ruleName, h, heff, htok, htr⟩
  · rw [h]
    exact ⟨fun _ => rfl, fun d hd => absurd hd (by simp), fun d hd => absurd hd (by simp)⟩
  · rw [h]
    refine ⟨fun hc => absurd hc (by simp), fun d hd _ => rfl, fun d hd heff => ?_⟩
    rw [Option.some_inj] at hd
    exact absurd (hd ▸ heff) hne
  · rw [h]
    refine ⟨fun hc => absurd hc (by simp), fun d hd hne => ?_, fun d hd _ => ?_⟩
    · rw [Option.some_inj] at hd
      exact absurd (hd ▸ heff) hne
    · rw [Option.some_inj] at hd
      subst hd
      exact ⟨htok, ruleName, htr, rfl⟩

/-- Witness for C10 at a concrete wildcard require-confirm rule: the one
minted token is appended to the empty table. -/
theorem check_token_table_frame_witness :
    (check [⟨"r", ⟨Option.none, Option.none, Option.none⟩, "require_confirm", "msg"⟩]
        [] 7 "ab" "ssh_exec" [("command", PyVal.str "uptime")]
        Option.none Option.none).2 =
      [] ++ [("conf_ab", ⟨"r", [("command", PyVal.str "uptime")], 7⟩)] := by
  obtain ⟨htok, ruleName, htr, htab⟩ :=
    (check_token_table_frame
      [⟨"r", ⟨Option.none, Option.none, Option.none⟩, "require_confirm", "msg"⟩]
      [] 7 "ab" "ssh_exec" [("command", PyVal.str "uptime")]
      Option.none Option.none rfl).2.2
      { effect := .requireConfirm, message := "msg", triggered_rule := some "r",
        confirm_token := some "conf_ab", risk_level := "low",
        metadata := some [("env", .str "dev"), ("action_type", .str "read")] }
      rfl rfl
  cases htr
  exact htab

/-! ## Stop-reason normalization -/

/-- C4 counterexample: a Gemini response whose vendor finish reason is the
generic "STOP" but which carries a function call normalizes to
`stop_reason = "stop"`, not "tool_use"; and a Zhipu response with an
unknown vendor finish reason is passed through verbatim, outside the
normalized set. -/
theorem stop_reason_normalization_cex :
    (gemini_normalize_response "gemini-2.0-flash"
        { candidates :=
            [{ parts := [{ text := Option.none,
                           function_call := some ⟨"ssh_exec", Option.none⟩ }],
               finish_reason := some "STOP" }],
          usage_metadata := Option.none }).tool_calls.length = 1 ∧
      (gemini_normalize_response "gemini-2.0-flash"
        { candidates :=
            [{ parts := [{ text := Option.none,
                           function_call := some ⟨"ssh_exec", Option.none⟩ }],
               finish_reason := some "STOP" }],
          usage_metadata := Option.none }).stop_reason = "stop" ∧
      (zhipu_normalize_response "glm-4-plus" (fun _ => Option.none)
        { choices := [{ message := { content := some "", tool_calls := Option.none },
                        finish_reason := some "sensitive" }],
          prompt_tokens := Option.none, completion_tokens := Option.none,
          total_tokens := Option.none, model := Option.none }).stop_reason = "sensitive" :=
  ⟨rfl, rfl, rfl⟩

/-- C4 amended: only Gemini and Zhipu partially normalize the stop reason.
Claude passes the vendor value through unchanged; Zhipu maps
`tool_calls` to `tool_use` and `length` to `max_tokens` but passes any
other non-empty vendor value through; Gemini maps STOP, MAX_TOKENS and
SAFETY to their normalized names and reports `tool_use` only when the
vendor finish reason is none of those and tool calls are present — so
tool calls with a generic vendor "STOP" do not yield `tool_use`. -/
theorem stop_reason_normalization_amended :
    (∀ response : ClaudeMessage,
        (claude_normalize_response response).stop_reason = response.stop_reason) ∧
      (∀ (modelName : String) (jsonLoads? : String → Option PyVal)
        (response : ZhipuResponse) (choice : ZhipuChoice) (rest : List ZhipuChoice),
        response.choices = choice :: rest →
        ((choice.finish_reason = some "tool_calls" →
            (zhipu_normalize_response modelName jsonLoads? response).stop_reason = "tool_use") ∧
          (choice.finish_reason = some "length" →
            (zhipu_normalize_response modelName jsonLoads? response).stop_reason = "max_tokens") ∧
          (∀ fr, choice.finish_reason = some fr →
            fr ≠ "tool_calls" → fr ≠ "length" → fr ≠ "" →
            (zhipu_normalize_response modelName jsonLoads? response).stop_reason = fr))) ∧
      (∀ (modelName : String) (response : GeminiResponse) (cand : GeminiCandidate)
        (rest : List GeminiCandidate),
        response.candidates = cand :: rest →
        ((cand.finish_reason = some "STOP" →
            (gemini_normalize_response modelName response).stop_reason = "stop") ∧
          (∀ fr, cand.finish_reason = some fr →
            fr ≠ "STOP" → fr ≠ "MAX_TOKENS" → fr ≠ "SAFETY" →
            (gemini_normalize_response modelName response).tool_calls.isEmpty = false →
            (gemini_normalize_response modelName response).stop_reason = "tool_use"))) := by
  refine ⟨fun response => rfl, ?_, ?_⟩
  · intro modelName jsonLoads? response choice rest hch
    refine ⟨?_, ?_, ?_⟩
    · intro h
      simp [zhipu_normalize_response, hch, h]
    · intro h
      simp [zhipu_normalize_response, hch, h]
    · intro fr h h1 h2 h3
      simp [zhipu_normalize_response, hch, h, h1, h2, h3]
  · intro modelName response cand rest hcand
    refine ⟨?_, ?_⟩
    · intro h
      simp [gemini_normalize_response, hcand, h]
    · intro fr h h1 h2 h3 htc
      simp only [gemini_normalize_response, hcand] at htc ⊢
      simp only [h, h1, h2, h3] at htc ⊢
      simp [htc]

/-- Witness for the amended C4 at concrete raw responses of each
provider. -/
theorem stop_reason_normalization_amended_witness :
    (claude_normalize_response
        { content := [.text "hi"], stop_reason := "end_turn",
          model := "claude-sonnet-4", input_tokens := 1, output_tokens := 2 }).stop_reason =
      "end_turn" ∧
      (zhipu_normalize_response "glm-4-plus" (fun _ => Option.none)
        { choices := [{ message := { content := some "", tool_calls := Option.none },
                        finish_reason := some "tool_calls" }],
          prompt_tokens := Option.none, completion_tokens := Option.none,
          total_tokens := Option.none, model := Option.none }).stop_reason = "tool_use" ∧
      (gemini_normalize_response "gemini-2.0-flash"
        { candidates :=
            [{ parts := [{ text := Option.none,
                           function_call := some ⟨"ssh_exec", Option.none⟩ }],
               finish_reason := some "OTHER" }],
          usage_metadata := Option.none }).stop_reason = "tool_use" := by
  refine ⟨stop_reason_normalization_amended.1
      { content := [.text "hi"], stop_reason := "end_turn",
        model := "claude-sonnet-4", input_tokens := 1, output_tokens := 2 }, ?_, ?_⟩
  · exact (stop_reason_normalization_amended.2.1 "glm-4-plus" (fun _ => Option.none)
      { choices := [{ message := { content := some "", tool_calls := Option.none },
                      finish_reason := some "tool_calls" }],
        prompt_tokens := Option.none, completion_tokens := Option.none,
        total_tokens := Option.none, model := Option.none }
      { message := { content := some "", tool_calls := Option.none },
        finish_reason := some "tool_calls" } [] rfl).1 rfl
  · exact (stop_reason_normalization_amended.2.2 "gemini-2.0-flash"
      { candidates :=
          [{ parts := [{ text := Option.none,
                         function_call := some ⟨"ssh_exec", Option.none⟩ }],
             finish_reason := some "OTHER" }],
        usage_metadata := Option.none }
      { parts := [{ text := Option.none,
                    function_call := some ⟨"ssh_exec", Option.none⟩ }],
        finish_reason := some "OTHER" } [] rfl).2 "OTHER" rfl
      (by decide) (by decide) (by decide) rfl

/-! ## Batch fan-out ordering -/

theorem completed_find (tasks : List ToolResult) (j : Nat) (hlt : j < tasks.length) :
    ∀ sched : List Nat, j ∈ sched →
      ((sched.filterMap fun i => (tasks.get? i).map fun t => (i, t)).find? (·.1 == j)) =
        (tasks.get? j).map fun t => (j, t) := by
  intro sched
  induction sched with
  | nil => intro h; cases h
  | cons i rest ih =>
    intro hmem
    by_cases hij : i = j
    · have ht : tasks.get? j = some (tasks.get ⟨j, hlt⟩) := List.get?_eq_get hlt
      rw [hij]
      simp only [List.filterMap_cons, ht, Option.map_some']
      rw [find?_cons_pos (fun x => x.1 == j) (j, tasks.get ⟨j, hlt⟩) _ (by simp)]
    · have hrest : j ∈ rest := by
        cases hmem with
        | head => exact absurd rfl hij
        | tail _ h => exact h
      cases hi : tasks.get? i with
      | none =>
        simp only [List.filterMap_cons, hi, Option.map_none']
        exact ih hrest
      | some ti =>
        simp only [List.filterMap_cons, hi, Option.map_some']
        rw [find?_cons_neg (fun x => x.1 == j) (i, ti) _ (by simpa using hij)]
        exact ih hrest

theorem range_filterMap_get {α : Type _} :
    ∀ (tasks : List α) (f : Nat → Option α),
      (∀ j, j < tasks.length → f j = tasks.get? j) →
      (List.range tasks.length).filterMap f = tasks := by
  intro tasks
  induction tasks with
  | nil => intro f _; rfl
  | cons t ts ih =>
    intro f h
    rw [List.length_cons, List.range_succ_eq_map, List.filterMap_cons]
    have h0 : f 0 = some t := by simpa using h 0 (Nat.succ_pos _)
    rw [h0, List.filterMap_map]
    have hrec : (List.range ts.length).filterMap (f ∘ Nat.succ) = ts := by
      apply ih
      intro j hj
      simpa using h (j + 1) (Nat.succ_lt_succ hj)
    rw [hrec]

/-- The gather model returns the results in task order whenever the
completion schedule covers every task, whatever its order. -/
theorem gatherSched_eq (tasks : List ToolResult) (sched : List Nat)
    (hall : ∀ j, j < tasks.length → j ∈ sched) :
    gatherSched tasks sched = tasks := by
  unfold gatherSched
  apply range_filterMap_get
  intro j hj
  rw [completed_find tasks j hj sched (hall j hj)]
  cases tasks.get? j <;> rfl

theorem zip_self_map {α β γ : Type _} (f : α → β) (g : α × β → γ) :
    ∀ l : List α, (l.zip (l.map f)).map g = l.map fun a => g (a, f a) := by
  intro l
  induction l with
  | nil => rfl
  | cons a rest ih => simp [ih]

/-- C9: the batch tool preserves input host order: whenever the executed
(parallel) batch returns its aggregated result, the per-host output lines
and the metadata results list follow the hosts in input order, for every
completion schedule covering the fan-out. -/
theorem batch_preserves_host_order
    (rules : List PolicyRule) (tokens : TokenTable) (now : ℚ) (hex : String)
    (execHost : String → ToolResult) (sched : List Nat) (hosts : List String)
    (command : String) (confirm_token : Option String) (r : ToolResult)
    (hall : ∀ j, j < hosts.length → j ∈ sched)
    (hr : (ssh_exec_batch_execute rules tokens now hex execHost sched hosts command
        true confirm_token).1 = some r)
    (hnp : r.status ≠ .pendingConfirm) :
    r = batch_aggregate hosts (hosts.map execHost) ∧
      r.output = String.intercalate "\n" (hosts.map fun h =>
        (if (execHost h).status == .success then "✅" else "❌") ++ " " ++ h ++ ": " ++
          (if (execHost h).output.isEmpty then (execHost h).error else (execHost h).output)) ∧
      (∃ total succ err, r.metadata = some
        [("total", total), ("success", succ), ("error", err),
         ("results", .list (hosts.map fun h =>
            .dict [("host", .str h),
                   ("status", .str (execHost h).status.value),
                   ("exit_code", pyOfOptInt (execHost h).exit_code)]))]) := by
  have hgather : gatherSched (hosts.map execHost) sched = hosts.map execHost := by
    apply gatherSched_eq
    intro j hj
    exact hall j (by simpa using hj)
  have hrun : ssh_exec_batch_run execHost sched hosts true =
      batch_aggregate hosts (hosts.map execHost) := by
    unfold ssh_exec_batch_run
    rw [if_pos rfl, hgather]
  have hmain : r = batch_aggregate hosts (hosts.map execHost) := by
    unfold ssh_exec_batch_execute at hr
    split at hr
    · cases hr
    · split at hr
      · split at hr
        · rw [Option.some_inj] at hr
          subst hr
          exact absurd rfl hnp
        · split at hr
          · rw [Option.some_inj] at hr
            subst hr
            exact absurd rfl hnp
          · rw [Option.some_inj] at hr
            rw [hrun] at hr
            exact hr.symm
      · rw [Option.some_inj] at hr
        rw [hrun] at hr
        exact hr.symm
  refine ⟨hmain, ?_, ?_⟩
  · rw [hmain]
    unfold batch_aggregate
    simp only [zip_self_map]
  · rw [hmain]
    unfold batch_aggregate
    refine ⟨PyVal.int hosts.length,
      PyVal.int (((hosts.map execHost).filter fun t => t.status == ToolStatus.success).length),
      PyVal.int (Int.ofNat ((hosts.map execHost).length -
        ((hosts.map execHost).filter fun t => t.status == ToolStatus.success).length)), ?_⟩
    simp only [zip_self_map]
    rfl

/-- Witness for C9: two hosts completing in reverse order still aggregate
in input order. -/
theorem batch_preserves_host_order_witness :
    (batch_aggregate ["h1", "h2"]
        (["h1", "h2"].map fun h =>
          ({ status := .success, output := "up " ++ h } : ToolResult))) =
      batch_aggregate ["h1", "h2"]
        (["h1", "h2"].map fun h =>
          ({ status := .success, output := "up " ++ h } : ToolResult)) ∧
      (batch_aggregate ["h1", "h2"]
        (["h1", "h2"].map fun h =>
          ({ status := .success, output := "up " ++ h } : ToolResult))).output =
        String.intercalate "\n" (["h1", "h2"].map fun h =>
          (if ({ status := .success, output := "up " ++ h } : ToolResult).status == .success
            then "✅" else "❌") ++ " " ++ h ++ ": " ++
            (if ({ status := .success, output := "up " ++ h } : ToolResult).output.isEmpty
              then ({ status := .success, output := "up " ++ h } : ToolResult).error
              else ({ status := .success, output := "up " ++ h } : ToolResult).output)) ∧
      (∃ total succ err,
        (batch_aggregate ["h1", "h2"]
          (["h1", "h2"].map fun h =>
            ({ status := .success, output := "up " ++ h } : ToolResult))).metadata = some
          [("total", total), ("success", succ), ("error", err),
           ("results", .list (["h1", "h2"].map fun h =>
              .dict [("host", .str h),
                     ("status", .str ({ status := .success, output := "up " ++ h } : ToolResult).status.value),
                     ("exit_code", pyOfOptInt ({ status := .success, output := "up " ++ h } : ToolResult).exit_code)]))]) :=
  batch_preserves_host_order [] [] 0 "ab"
    (fun h => { status := .success, output := "up " ++ h }) [1, 0] ["h1", "h2"]
    "uptime" Option.none
    (batch_aggregate ["h1", "h2"]
      (["h1", "h2"].map fun h => { status := .success, output := "up " ++ h }))
    (by decide) rfl (by decide)

/-! ## Agent loop -/

theorem conv_at_shift (provider : List ChatMsg → NormResponse)
    (callTool : String → PyVal → ExecOutcome) (messages : List ChatMsg) :
    ∀ i, conv_at provider callTool (loop_step provider callTool messages) i =
      conv_at provider callTool messages (i + 1) := by
  intro i
  induction i with
  | zero => rfl
  | succ i ih =>
    show loop_step provider callTool (conv_at provider callTool (loop_step provider callTool messages) i) = _
    rw [ih]
    rfl

theorem resp_at_shift (provider : List ChatMsg → NormResponse)
    (callTool : String → PyVal → ExecOutcome) (messages : List ChatMsg) (i : Nat) :
    resp_at provider callTool (loop_step provider callTool messages) i =
      resp_at provider callTool messages (i + 1) := by
  unfold resp_at
  rw [conv_at_shift]

theorem loop_step_of_nonempty (provider : List ChatMsg → NormResponse)
    (callTool : String → PyVal → ExecOutcome) (conv : List ChatMsg)
    (h : (provider conv).tool_calls.isEmpty = false) :
    loop_step provider callTool conv =
      (conv ++ [ChatMsg.assistant (provider conv).content])
        ++ [ChatMsg.toolResults ((provider conv).tool_calls.map fun tc =>
              (tc.id, loop_tool_result_text (callTool tc.name tc.arguments)))] := by
  unfold loop_step
  rw [if_neg (by simp [h])]

theorem agent_loop_go_succ (provider : List ChatMsg → NormResponse)
    (callTool : String → PyVal → ExecOutcome) (maxIterations n : Nat)
    (conv : List ChatMsg) (prev : Option NormResponse) (total : UsageN) :
    agent_loop_go provider callTool maxIterations (n + 1) conv prev total =
      if (provider conv).tool_calls.isEmpty then
        { provider conv with usage := uadd total (provider conv).usage }
      else
        agent_loop_go provider callTool maxIterations n
          ((conv ++ [ChatMsg.assistant (provider conv).content])
            ++ [ChatMsg.toolResults ((provider conv).tool_calls.map fun tc =>
                  (tc.id, loop_tool_result_text (callTool tc.name tc.arguments)))])
          (some (provider conv)) (uadd total (provider conv).usage) := rfl

theorem agent_loop_go_first_empty (provider : List ChatMsg → NormResponse)
    (callTool : String → PyVal → ExecOutcome) (maxIterations : Nat) :
    ∀ (k n : Nat) (conv : List ChatMsg) (prev : Option NormResponse) (total : UsageN),
      k < n →
      (∀ j, j < k → (resp_at provider callTool conv j).tool_calls.isEmpty = false) →
      (resp_at provider callTool conv k).tool_calls.isEmpty = true →
      agent_loop_go provider callTool maxIterations n conv prev total =
        { resp_at provider callTool conv k with
            usage := cum_usage_from provider callTool conv total k } := by
  intro k
  induction k with
  | zero =>
    intro n conv prev total hkn _ hk
    cases n with
    | zero => exact absurd hkn (by omega)
    | succ m =>
      have h0 : (provider conv).tool_calls.isEmpty = true := hk
      rw [agent_loop_go_succ, if_pos h0]
      rfl
  | succ k ih =>
    intro n conv prev total hkn hne hk
    cases n with
    | zero => exact absurd hkn (by omega)
    | succ m =>
      have h0 : (provider conv).tool_calls.isEmpty = false := hne 0 (Nat.succ_pos _)
      rw [agent_loop_go_succ, if_neg (by simp [h0])]
      rw [← loop_step_of_nonempty provider callTool conv h0]
      have hrec := ih m (loop_step provider callTool conv) (some (provider conv))
        (uadd total (provider conv).usage) (by omega)
        (fun j hj => by rw [resp_at_shift]; exact hne (j + 1) (by omega))
        (by rw [resp_at_shift]; exact hk)
      rw [hrec, resp_at_shift]
      rfl

theorem agent_loop_go_capped (provider : List ChatMsg → NormResponse)
    (callTool : String → PyVal → ExecOutcome) (maxIterations : Nat) :
    ∀ (m : Nat) (conv : List ChatMsg) (prev : Option NormResponse) (total : UsageN),
      (∀ j, j < m + 1 → (resp_at provider callTool conv j).tool_calls.isEmpty = false) →
      agent_loop_go provider callTool maxIterations (m + 1) conv prev total =
        { resp_at provider callTool conv m with
            usage := cum_usage_from provider callTool conv total m,
            content := (resp_at provider callTool conv m).content
              ++ capSuffix maxIterations } := by
  intro m
  induction m with
  | zero =>
    intro conv prev total hne
    have h0 : (provider conv).tool_calls.isEmpty = false := hne 0 (Nat.succ_pos _)
    rw [agent_loop_go_succ, if_neg (by simp [h0])]
    rfl
  | succ m ih =>
    intro conv prev total hne
    have h0 : (provider conv).tool_calls.isEmpty = false := hne 0 (Nat.succ_pos _)
    rw [agent_loop_go_succ, if_neg (by simp [h0])]
    rw [← loop_step_of_nonempty provider callTool conv h0]
    have hrec := ih (loop_step provider callTool conv) (some (provider conv))
      (uadd total (provider conv).usage)
      (fun j hj => by rw [resp_at_shift]; exact hne (j + 1) (by omega))
    rw [hrec, resp_at_shift]
    rfl

/-- C7 amended: if the iteration-indexed responses first become free of
tool calls at an iteration `k` within the cap, the loop returns that
response with the cumulative usage attached; if every response within the
cap carries tool calls, the loop stops after exactly `max_iterations`
iterations and returns the last response with the cap-notice suffix
appended and the cumulative usage attached. An empty response that first
occurs at or beyond the cap is never returned. -/
theorem agent_loop_termination_amended (provider : List ChatMsg → NormResponse)
    (callTool : String → PyVal → ExecOutcome) (messages : List ChatMsg)
    (maxIterations : Nat) (hN : 1 ≤ maxIterations) :
    (∀ k, k < maxIterations →
      (∀ j, j < k → (resp_at provider callTool messages j).tool_calls.isEmpty = false) →
      (resp_at provider callTool messages k).tool_calls.isEmpty = true →
      agent_loop provider callTool maxIterations messages =
        { resp_at provider callTool messages k with
            usage := cum_usage_from provider callTool messages ⟨0, 0, 0⟩ k }) ∧
      ((∀ j, j < maxIterations →
          (resp_at provider callTool messages j).tool_calls.isEmpty = false) →
        agent_loop provider callTool maxIterations messages =
          { resp_at provider callTool messages (maxIterations - 1) with
              usage := cum_usage_from provider callTool messages ⟨0, 0, 0⟩
                (maxIterations - 1),
              content := (resp_at provider callTool messages (maxIterations - 1)).content
                ++ capSuffix maxIterations }) := by
  obtain ⟨m, rfl⟩ : ∃ m, maxIterations = m + 1 := ⟨maxIterations - 1, by omega⟩
  constructor
  · intro k hk hne hempty
    exact agent_loop_go_first_empty provider callTool (m + 1) k (m + 1) messages
      Option.none ⟨0, 0, 0⟩ hk hne hempty
  · intro hne
    have := agent_loop_go_capped provider callTool (m + 1) m messages
      Option.none ⟨0, 0, 0⟩ hne
    simpa [agent_loop] using this

/-- C7 counterexample: with `max_iterations = 1` and a provider whose
responses carry tool calls on the first call and become tool-free on the
second, the loop does not return the tool-free response: it returns the
first response with the cap suffix, even though the iteration-indexed
responses eventually include one with empty tool calls. -/
theorem agent_loop_late_empty_cex :
    (resp_at
        (fun conv =>
          if conv.length ≤ 1 then
            { content := "working", tool_calls := [⟨"id1", "ssh_exec", PyVal.dict []⟩],
              model := "m", usage := ⟨1, 1, 2⟩, stop_reason := "tool_use" }
          else
            { content := "done", tool_calls := [], model := "m",
              usage := ⟨1, 1, 2⟩, stop_reason := "stop" })
        (fun _ _ => ExecOutcome.ok { status := .success, output := "ok" })
        [ChatMsg.raw "user" "hi"] 1).tool_calls.isEmpty = true ∧
      (agent_loop
        (fun conv =>
          if conv.length ≤ 1 then
            { content := "working", tool_calls := [⟨"id1", "ssh_exec", PyVal.dict []⟩],
              model := "m", usage := ⟨1, 1, 2⟩, stop_reason := "tool_use" }
          else
            { content := "done", tool_calls := [], model := "m",
              usage := ⟨1, 1, 2⟩, stop_reason := "stop" })
        (fun _ _ => ExecOutcome.ok { status := .success, output := "ok" })
        1 [ChatMsg.raw "user" "hi"]).content ≠
        (resp_at
          (fun conv =>
            if conv.length ≤ 1 then
              { content := "working", tool_calls := [⟨"id1", "ssh_exec", PyVal.dict []⟩],
                model := "m", usage := ⟨1, 1, 2⟩, stop_reason := "tool_use" }
            else
              { content := "done", tool_calls := [], model := "m",
                usage := ⟨1, 1, 2⟩, stop_reason := "stop" })
          (fun _ _ => ExecOutcome.ok { status := .success, output := "ok" })
          [ChatMsg.raw "user" "hi"] 1).content := by
  exact ⟨rfl, by decide⟩

/-- Witness for the amended C7: a run that goes tool-free on the second
iteration within a cap of 2 returns that response; a run that never goes
tool-free under a cap of 1 returns the capped response. -/
theorem agent_loop_termination_amended_witness :
    (agent_loop
        (fun conv =>
          if conv.length ≤ 1 then
            { content := "working", tool_calls := [⟨"id1", "ssh_exec", PyVal.dict []⟩],
              model := "m", usage := ⟨1, 1, 2⟩, stop_reason := "tool_use" }
          else
            { content := "done", tool_calls := [], model := "m",
              usage := ⟨1, 1, 2⟩, stop_reason := "stop" })
        (fun _ _ => ExecOutcome.ok { status := .success, output := "ok" })
        2 [ChatMsg.raw "user" "hi"] =
      { resp_at
          (fun conv =>
            if conv.length ≤ 1 then
              { content := "working", tool_calls := [⟨"id1", "ssh_exec", PyVal.dict []⟩],
                model := "m", usage := ⟨1, 1, 2⟩, stop_reason := "tool_use" }
            else
              { content := "done", tool_calls := [], model := "m",
                usage := ⟨1, 1, 2⟩, stop_reason := "stop" })
          (fun _ _ => ExecOutcome.ok { status := .success, output := "ok" })
          [ChatMsg.raw "user" "hi"] 1 with
          usage := cum_usage_from
            (fun conv =>
              if conv.length ≤ 1 then
                { content := "working", tool_calls := [⟨"id1", "ssh_exec", PyVal.dict []⟩],
                  model := "m", usage := ⟨1, 1, 2⟩, stop_reason := "tool_use" }
              else
                { content := "done", tool_calls := [], model := "m",
                  usage := ⟨1, 1, 2⟩, stop_reason := "stop" })
            (fun _ _ => ExecOutcome.ok { status := .success, output := "ok" })
            [ChatMsg.raw "user" "hi"] ⟨0, 0, 0⟩ 1 }) ∧
      (agent_loop
        (fun _ =>
          ({ content := "working", tool_calls := [⟨"id1", "ssh_exec", PyVal.dict []⟩],
             model := "m", usage := ⟨1, 1, 2⟩, stop_reason := "tool_use" } : NormResponse))
        (fun _ _ => ExecOutcome.ok { status := .success, output := "ok" })
        1 [ChatMsg.raw "user" "hi"] =
      { resp_at
          (fun _ =>
            ({ content := "working", tool_calls := [⟨"id1", "ssh_exec", PyVal.dict []⟩],
               model := "m", usage := ⟨1, 1, 2⟩, stop_reason := "tool_use" } : NormResponse))
          (fun _ _ => ExecOutcome.ok { status := .success, output := "ok" })
          [ChatMsg.raw "user" "hi"] 0 with
          usage := cum_usage_from
            (fun _ =>
              ({ content := "working", tool_calls := [⟨"id1", "ssh_exec", PyVal.dict []⟩],
                 model := "m", usage := ⟨1, 1, 2⟩, stop_reason := "tool_use" } : NormResponse))
            (fun _ _ => ExecOutcome.ok { status := .success, output := "ok" })
            [ChatMsg.raw "user" "hi"] ⟨0, 0, 0⟩ 0,
          content := (resp_at
            (fun _ =>
              ({ content := "working", tool_calls := [⟨"id1", "ssh_exec", PyVal.dict []⟩],
                 model := "m", usage := ⟨1, 1, 2⟩, stop_reason := "tool_use" } : NormResponse))
            (fun _ _ => ExecOutcome.ok { status := .success, output := "ok" })
            [ChatMsg.raw "user" "hi"] 0).content ++ capSuffix 1 }) :=
  ⟨(agent_loop_termination_amended
      (fun conv =>
        if conv.length ≤ 1 then
          { content := "working", tool_calls := [⟨"id1", "ssh_exec", PyVal.dict []⟩],
            model := "m", usage := ⟨1, 1, 2⟩, stop_reason := "tool_use" }
        else
          { content := "done", tool_calls := [], model := "m",
            usage := ⟨1, 1, 2⟩, stop_reason := "stop" })
      (fun _ _ => ExecOutcome.ok { status := .success, output := "ok" })
      [ChatMsg.raw "user" "hi"] 2 (by omega)).1 1 (by omega)
      (fun j hj => by
        obtain rfl : j = 0 := by omega
        rfl) rfl,
    (agent_loop_termination_amended
      (fun _ =>
        ({ content := "working", tool_calls := [⟨"id1", "ssh_exec", PyVal.dict []⟩],
           model := "m", usage := ⟨1, 1, 2⟩, stop_reason := "tool_use" } : NormResponse))
      (fun _ _ => ExecOutcome.ok { status := .success, output := "ok" })
      [ChatMsg.raw "user" "hi"] 1 (by omega)).2
      (fun j hj => by
        obtain rfl : j = 0 := by omega
        rfl)⟩

end FlowPilot
